import Mathlib

/-!
Shallow embedding of the span-ingestion engine of
src/phoenix/db/insertion/span.py (function insert_span), together with the
relational state it operates on.  Timestamps are modelled as integers, row
identifiers as naturals allocated from per-table counters, and the SQL tables
as lists of row structures.  All definitions are executable.
-/

namespace Phoenix

/-- A value stored in a span's attribute bag can be textual or numeric
(the session identifier, for instance, may be a string or the number 0). -/
inductive AttrValue where
  | str (s : String)
  | num (n : Int)
deriving DecidableEq

/-- Python str.strip(): drop leading and trailing whitespace. -/
def pyStrip (s : String) : String :=
  ⟨((s.data.dropWhile Char.isWhitespace).reverse.dropWhile Char.isWhitespace).reverse⟩

/-- Python str.lower() (ASCII lowering, as used for span-kind comparison). -/
def pyLower (s : String) : String := ⟨s.data.map Char.toLower⟩

/-- Modelled from the spec: the Attribute Extractor (§4.1,
phoenix.trace.attributes.get_attribute_value, whose source is not part of
src/) returns typed optional values out of the span's attribute bag: prompt
and completion token counts, the session identifier (string or number),
the span-kind value, the user identifier, and the presence of the
input/output message lists.  Missing keys yield none/false. -/
structure Attributes where
  llm_token_count_prompt : Option Int := none
  llm_token_count_completion : Option Int := none
  session_id : Option AttrValue := none
  openinference_span_kind : Option AttrValue := none
  user_id : Option String := none
  has_llm_input_messages : Bool := false
  has_llm_output_messages : Bool := false
deriving DecidableEq

/-- phoenix.trace.schemas.SpanStatusCode. -/
inductive SpanStatusCode where
  | UNSET
  | OK
  | ERROR
deriving DecidableEq

/-- The .value string of a status code, as stored on the span row. -/
def SpanStatusCode.value : SpanStatusCode → String
  | .UNSET => "UNSET"
  | .OK => "OK"
  | .ERROR => "ERROR"

/-- OpenInferenceSpanKindValues.LLM.value from the semantic conventions. -/
def llmKindValue : String := "LLM"

/-- phoenix.trace.schemas.SpanContext (the parts insert_span reads). -/
structure SpanContext where
  trace_id : String
  span_id : String
deriving DecidableEq

/-- The incoming span (phoenix.trace.schemas.Span, the fields insert_span
reads).  Events are opaque payloads. -/
structure Span where
  context : SpanContext
  parent_id : Option String := none
  span_kind : String := "UNKNOWN"
  name : String := ""
  start_time : Int := 0
  end_time : Int := 0
  attributes : Attributes := {}
  events : List String := []
  status_code : SpanStatusCode := .UNSET
  status_message : String := ""
deriving DecidableEq

/-- models.Project row. -/
structure ProjectRow where
  id : Nat
  name : String
deriving DecidableEq

/-- models.Trace row. -/
structure TraceRow where
  id : Nat
  trace_id : String
  project_rowid : Nat
  start_time : Int
  end_time : Int
deriving DecidableEq

/-- models.Span row. -/
structure SpanRow where
  id : Nat
  span_id : String
  trace_rowid : Nat
  parent_id : Option String
  span_kind : String
  name : String
  start_time : Int
  end_time : Int
  attributes : Attributes
  events : List String
  status_code : String
  status_message : String
  cumulative_error_count : Int
  cumulative_llm_token_count_prompt : Int
  cumulative_llm_token_count_completion : Int
  llm_token_count_prompt : Option Int
  llm_token_count_completion : Option Int
deriving DecidableEq

/-- models.ProjectSession row. -/
structure ProjectSessionRow where
  id : Nat
  session_id : String
  session_user : Option String
  project_id : Nat
  start_time : Int
  end_time : Int
deriving DecidableEq

/-- models.ChatSessionSpan row (its own primary key is never read). -/
structure ChatSessionSpanRow where
  session_rowid : Nat
  session_id : String
  session_user : Option String
  timestamp : Int
  span_rowid : Nat
  trace_rowid : Nat
  project_id : Nat
deriving DecidableEq

/-- The relational store: one list per table plus the id sequences. -/
structure Store where
  projects : List ProjectRow
  traces : List TraceRow
  spans : List SpanRow
  sessions : List ProjectSessionRow
  links : List ChatSessionSpanRow
  nextProjectId : Nat
  nextTraceId : Nat
  nextSpanId : Nat
  nextSessionId : Nat
deriving DecidableEq

def Store.empty : Store := ⟨[], [], [], [], [], 1, 1, 1, 1⟩

/-- Event returned on a real insertion (span.py lines 15-16): it carries the
project's row id. -/
structure SpanInsertionEvent where
  project_rowid : Nat
deriving DecidableEq

/-- span.py lines 29-37: look the project up by name, inserting it first if
absent, and return its row id. -/
def resolveProject (s : Store) (project_name : String) : Nat × Store :=
  match s.projects.find? (fun p => p.name == project_name) with
  | some p => (p.id, s)
  | none =>
      (s.nextProjectId,
       { s with
          projects := s.projects ++ [⟨s.nextProjectId, project_name⟩],
          nextProjectId := s.nextProjectId + 1 })

/-- span.py lines 39-76: find the trace by trace_id.  When present, widen its
window (new start is the min, new end is the max of the stored bounds and the
span's bounds) and, exactly when the end bound grew, reassign its project;
write only when a bound changed.  When absent, insert a trace carrying the
span's window.  Returns the trace row as subsequently used by the rest of the
call (the in-memory object reflects the update). -/
def upsertTrace (s : Store) (span : Span) (project_rowid : Nat) :
    TraceRow × Store :=
  match s.traces.find? (fun t => t.trace_id == span.context.trace_id) with
  | some trace =>
      if trace.end_time < span.end_time || span.start_time < trace.start_time then
        let new_start := if span.start_time < trace.start_time then span.start_time else trace.start_time
        let new_end := if trace.end_time < span.end_time then span.end_time else trace.end_time
        let new_proj := if trace.end_time < span.end_time then project_rowid else trace.project_rowid
        ({ trace with start_time := new_start, end_time := new_end, project_rowid := new_proj },
         { s with
            traces := s.traces.map (fun u =>
              if u.id == trace.id then
                { u with start_time := new_start, end_time := new_end, project_rowid := new_proj }
              else u) })
      else (trace, s)
  | none =>
      let trace : TraceRow :=
        ⟨s.nextTraceId, span.context.trace_id, project_rowid, span.start_time, span.end_time⟩
      (trace, { s with traces := s.traces ++ [trace], nextTraceId := s.nextTraceId + 1 })

/-- span.py line 77: the span's own error contribution. -/
def ownErrorCount (span : Span) : Int :=
  if span.status_code = SpanStatusCode.ERROR then 1 else 0

/-- span.py lines 91-102: sums of the three cumulative counters over the
currently stored spans whose parent_id equals the given span_id. -/
def childSums (spans : List SpanRow) (span_id : String) : Int × Int × Int :=
  let children := spans.filter (fun r => r.parent_id == some span_id)
  ((children.map (fun r => r.cumulative_error_count)).sum,
   (children.map (fun r => r.cumulative_llm_token_count_prompt)).sum,
   (children.map (fun r => r.cumulative_llm_token_count_completion)).sum)

/-- span.py lines 77-102: the new span's cumulative counters: its own error
and token contributions (token attributes defaulting to 0) plus the sums over
its already-stored direct children. -/
def newSpanCum (spans : List SpanRow) (span : Span) : Int × Int × Int :=
  let c := childSums spans span.context.span_id
  (ownErrorCount span + c.1,
   (span.attributes.llm_token_count_prompt).getD 0 + c.2.1,
   (span.attributes.llm_token_count_completion).getD 0 + c.2.2)

/-- span.py lines 103-127: the row inserted for the span. -/
def mkSpanRow (span : Span) (span_rowid : Nat) (trace_rowid : Nat)
    (cum : Int × Int × Int) : SpanRow :=
  { id := span_rowid
    span_id := span.context.span_id
    trace_rowid := trace_rowid
    parent_id := span.parent_id
    span_kind := span.span_kind
    name := span.name
    start_time := span.start_time
    end_time := span.end_time
    attributes := span.attributes
    events := span.events
    status_code := span.status_code.value
    status_message := span.status_message
    cumulative_error_count := cum.1
    cumulative_llm_token_count_prompt := cum.2.1
    cumulative_llm_token_count_completion := cum.2.2
    llm_token_count_prompt := span.attributes.llm_token_count_prompt
    llm_token_count_completion := span.attributes.llm_token_count_completion }

/-- span.py lines 135-145: the recursive common-table-expression anchored at
the stored row whose span_id equals the new span's parent_id, following
parent_id upward over stored rows only (the walk ends at a missing row).
Fuel bounds the recursion; insert_span supplies the table size. -/
def ancestorChain (spans : List SpanRow) : Option String → Nat → List SpanRow
  | _, 0 => []
  | none, _ => []
  | some pid, Nat.succ fuel =>
      match spans.find? (fun r => r.span_id == pid) with
      | none => []
      | some r => r :: ancestorChain spans r.parent_id fuel

/-- span.py lines 150-155: add the three deltas to a row's cumulative
counters (the relative, increment-in-place update). -/
def bumpRow (d : Int × Int × Int) (r : SpanRow) : SpanRow :=
  { r with
      cumulative_error_count := r.cumulative_error_count + d.1,
      cumulative_llm_token_count_prompt := r.cumulative_llm_token_count_prompt + d.2.1,
      cumulative_llm_token_count_completion := r.cumulative_llm_token_count_completion + d.2.2 }

/-- span.py lines 146-156: update every row whose id the ancestor query
returned, adding the just-computed cumulative values. -/
def propagateAncestors (spans : List SpanRow) (parent_id : Option String)
    (d : Int × Int × Int) : List SpanRow :=
  let ancestorIds := (ancestorChain spans parent_id spans.length).map (fun r => r.id)
  spans.map (fun r => if r.id ∈ ancestorIds then bumpRow d r else r)

/-- span.py line 174: str(chat_session_id).strip(). -/
def attrToSessionKey : AttrValue → String
  | .str t => pyStrip t
  | .num n => pyStrip (toString n)

/-- span.py lines 157-172: the guard of the session correlator, evaluated on
the extracted attribute values: a session id is present (a non-empty string
once stripped, or any number, 0 included), the span-kind attribute is a
string equal to "LLM" case-insensitively, and an input or output message
list is present. -/
def sessionGuard (a : Attributes) : Bool :=
  match a.session_id with
  | none => false
  | some chat_session_id =>
      (match chat_session_id with
       | .str t => !(pyStrip t == "")
       | .num _ => true)
      && (match a.openinference_span_kind with
          | some (.str k) => pyLower k == pyLower llmKindValue
          | _ => false)
      && (a.has_llm_input_messages || a.has_llm_output_messages)

/-- span.py lines 157-215: the session correlator.  When the guard holds,
find the ProjectSession by the stripped session id.  If absent, create it
with the span's own time window, the resolved project and the span's user.
If present, widen its window to include the trace's window, set its user only
when previously unset, reassign its project to the resolved one, and persist
only when something changed.  In either case append one ChatSessionSpan
link. -/
def correlateSession (s : Store) (span : Span) (project_rowid : Nat)
    (trace : TraceRow) (span_rowid : Nat) : Store :=
  match span.attributes.session_id with
  | none => s
  | some chat_session_id =>
      if sessionGuard span.attributes then
        let session_user := span.attributes.user_id
        let session_id := attrToSessionKey chat_session_id
        let afterSession : Nat × Store :=
          match s.sessions.find? (fun ps => ps.session_id == session_id) with
          | none =>
              let project_session : ProjectSessionRow :=
                ⟨s.nextSessionId, session_id, session_user, project_rowid,
                 span.start_time, span.end_time⟩
              (project_session.id,
               { s with
                  sessions := s.sessions ++ [project_session],
                  nextSessionId := s.nextSessionId + 1 })
          | some project_session =>
              let updated : ProjectSessionRow :=
                { project_session with
                    start_time :=
                      if trace.start_time < project_session.start_time then trace.start_time
                      else project_session.start_time,
                    end_time :=
                      if project_session.end_time < trace.end_time then trace.end_time
                      else project_session.end_time,
                    session_user :=
                      if project_session.session_user = none then session_user
                      else project_session.session_user,
                    project_id :=
                      if project_session.project_id ≠ project_rowid then project_rowid
                      else project_session.project_id }
              (project_session.id,
               { s with
                  sessions := s.sessions.map (fun q =>
                    if q.id == project_session.id then updated else q) })
        let s1 := afterSession.2
        let chat_session_span : ChatSessionSpanRow :=
          ⟨afterSession.1, session_id, session_user, span.start_time,
           span_rowid, trace.id, project_rowid⟩
        { s1 with links := s1.links ++ [chat_session_span] }
      else s

/-- span.py lines 23-216: the whole ingestion pipeline for one span:
resolve the project, upsert the trace, compute the cumulative counters,
insert the span unless its span_id already exists (in which case the call
returns none with no further effect), propagate the cumulative values to the
stored ancestors, correlate the session, and return the insertion event
carrying the project row id. -/
def insert_span (s : Store) (span : Span) (project_name : String) :
    Option SpanInsertionEvent × Store :=
  let pr := resolveProject s project_name
  let project_rowid := pr.1
  let s1 := pr.2
  let tu := upsertTrace s1 span project_rowid
  let trace := tu.1
  let s2 := tu.2
  if s2.spans.any (fun r => r.span_id == span.context.span_id) then
    (none, s2)
  else
    let d := newSpanCum s2.spans span
    let span_rowid := s2.nextSpanId
    let row := mkSpanRow span span_rowid trace.id d
    let s3 := { s2 with
                  spans := propagateAncestors (s2.spans ++ [row]) span.parent_id d,
                  nextSpanId := s2.nextSpanId + 1 }
    let s4 := correlateSession s3 span project_rowid trace span_rowid
    (some ⟨project_rowid⟩, s4)

/-- Ingest a list of (span, project name) calls in order, each committed
before the next starts, from the empty store. -/
def ingestAll (ops : List (Span × String)) : Store :=
  ops.foldl (fun s op => (insert_span s op.1 op.2).2) Store.empty

/-- The three cumulative counters of the stored row with the given span_id. -/
def spanCounters (s : Store) (sid : String) : Option (Int × Int × Int) :=
  (s.spans.find? (fun r => r.span_id == sid)).map
    (fun r => (r.cumulative_error_count, r.cumulative_llm_token_count_prompt,
               r.cumulative_llm_token_count_completion))

/-- A span of the synthetic root/children trace used for the
order-independence scenario: trace "T", window [0, 10], with its own status
and token contributions. -/
def mkS (sid : String) (par : Option String) (st : SpanStatusCode) (p c : Int) : Span :=
  { context := ⟨"T", sid⟩, parent_id := par, start_time := 0, end_time := 10,
    status_code := st,
    attributes := { llm_token_count_prompt := some p, llm_token_count_completion := some c } }

/-- Store after ingesting child A into the empty store. -/
def stABR1 (stA : SpanStatusCode) (pA cA : Int) : Store :=
  ⟨[⟨1, "p"⟩], [⟨1, "T", 1, 0, 10⟩],
   [mkSpanRow (mkS "A" (some "R") stA pA cA) 1 1 (ownErrorCount (mkS "A" (some "R") stA pA cA) + 0, pA + 0, cA + 0)],
   [], [], 2, 2, 2, 1⟩

/-- Store after ingesting A then B. -/
def stABR2 (stA stB : SpanStatusCode) (pA cA pB cB : Int) : Store :=
  ⟨[⟨1, "p"⟩], [⟨1, "T", 1, 0, 10⟩],
   [mkSpanRow (mkS "A" (some "R") stA pA cA) 1 1 (ownErrorCount (mkS "A" (some "R") stA pA cA) + 0, pA + 0, cA + 0),
    mkSpanRow (mkS "B" (some "R") stB pB cB) 2 1 (ownErrorCount (mkS "B" (some "R") stB pB cB) + 0, pB + 0, cB + 0)],
   [], [], 2, 2, 3, 1⟩

/-- Store after ingesting A, B, then root R (R sums both children). -/
def stABR3 (stR stA stB : SpanStatusCode) (pR cR pA cA pB cB : Int) : Store :=
  ⟨[⟨1, "p"⟩], [⟨1, "T", 1, 0, 10⟩],
   [mkSpanRow (mkS "A" (some "R") stA pA cA) 1 1 (ownErrorCount (mkS "A" (some "R") stA pA cA) + 0, pA + 0, cA + 0),
    mkSpanRow (mkS "B" (some "R") stB pB cB) 2 1 (ownErrorCount (mkS "B" (some "R") stB pB cB) + 0, pB + 0, cB + 0),
    mkSpanRow (mkS "R" none stR pR cR) 3 1
      (ownErrorCount (mkS "R" none stR pR cR) + ((ownErrorCount (mkS "A" (some "R") stA pA cA) + 0) + ((ownErrorCount (mkS "B" (some "R") stB pB cB) + 0) + 0)),
       pR + ((pA + 0) + ((pB + 0) + 0)),
       cR + ((cA + 0) + ((cB + 0) + 0)))],
   [], [], 2, 2, 4, 1⟩

/-- Store after ingesting root R into the empty store. -/
def stRAB1 (stR : SpanStatusCode) (pR cR : Int) : Store :=
  ⟨[⟨1, "p"⟩], [⟨1, "T", 1, 0, 10⟩],
   [mkSpanRow (mkS "R" none stR pR cR) 1 1 (ownErrorCount (mkS "R" none stR pR cR) + 0, pR + 0, cR + 0)],
   [], [], 2, 2, 2, 1⟩

/-- Store after ingesting R then A (A's insert bumps R). -/
def stRAB2 (stR stA : SpanStatusCode) (pR cR pA cA : Int) : Store :=
  ⟨[⟨1, "p"⟩], [⟨1, "T", 1, 0, 10⟩],
   [bumpRow (ownErrorCount (mkS "A" (some "R") stA pA cA) + 0, pA + 0, cA + 0)
      (mkSpanRow (mkS "R" none stR pR cR) 1 1 (ownErrorCount (mkS "R" none stR pR cR) + 0, pR + 0, cR + 0)),
    mkSpanRow (mkS "A" (some "R") stA pA cA) 2 1 (ownErrorCount (mkS "A" (some "R") stA pA cA) + 0, pA + 0, cA + 0)],
   [], [], 2, 2, 3, 1⟩

/-- Store after ingesting R, A, then B (B's insert bumps R again). -/
def stRAB3 (stR stA stB : SpanStatusCode) (pR cR pA cA pB cB : Int) : Store :=
  ⟨[⟨1, "p"⟩], [⟨1, "T", 1, 0, 10⟩],
   [bumpRow (ownErrorCount (mkS "B" (some "R") stB pB cB) + 0, pB + 0, cB + 0)
     (bumpRow (ownErrorCount (mkS "A" (some "R") stA pA cA) + 0, pA + 0, cA + 0)
      (mkSpanRow (mkS "R" none stR pR cR) 1 1 (ownErrorCount (mkS "R" none stR pR cR) + 0, pR + 0, cR + 0))),
    mkSpanRow (mkS "A" (some "R") stA pA cA) 2 1 (ownErrorCount (mkS "A" (some "R") stA pA cA) + 0, pA + 0, cA + 0),
    mkSpanRow (mkS "B" (some "R") stB pB cB) 3 1 (ownErrorCount (mkS "B" (some "R") stB pB cB) + 0, pB + 0, cB + 0)],
   [], [], 2, 2, 4, 1⟩

/-- Store after ingesting child B into the empty store. -/
def stBRA1 (stB : SpanStatusCode) (pB cB : Int) : Store :=
  ⟨[⟨1, "p"⟩], [⟨1, "T", 1, 0, 10⟩],
   [mkSpanRow (mkS "B" (some "R") stB pB cB) 1 1 (ownErrorCount (mkS "B" (some "R") stB pB cB) + 0, pB + 0, cB + 0)],
   [], [], 2, 2, 2, 1⟩

/-- Store after ingesting B then R (R sums the already-stored child B). -/
def stBRA2 (stR stB : SpanStatusCode) (pR cR pB cB : Int) : Store :=
  ⟨[⟨1, "p"⟩], [⟨1, "T", 1, 0, 10⟩],
   [mkSpanRow (mkS "B" (some "R") stB pB cB) 1 1 (ownErrorCount (mkS "B" (some "R") stB pB cB) + 0, pB + 0, cB + 0),
    mkSpanRow (mkS "R" none stR pR cR) 2 1
      (ownErrorCount (mkS "R" none stR pR cR) + ((ownErrorCount (mkS "B" (some "R") stB pB cB) + 0) + 0),
       pR + ((pB + 0) + 0),
       cR + ((cB + 0) + 0))],
   [], [], 2, 2, 3, 1⟩

/-- Store after ingesting B, R, then A (A's insert bumps R). -/
def stBRA3 (stR stA stB : SpanStatusCode) (pR cR pA cA pB cB : Int) : Store :=
  ⟨[⟨1, "p"⟩], [⟨1, "T", 1, 0, 10⟩],
   [mkSpanRow (mkS "B" (some "R") stB pB cB) 1 1 (ownErrorCount (mkS "B" (some "R") stB pB cB) + 0, pB + 0, cB + 0),
    bumpRow (ownErrorCount (mkS "A" (some "R") stA pA cA) + 0, pA + 0, cA + 0)
      (mkSpanRow (mkS "R" none stR pR cR) 2 1
        (ownErrorCount (mkS "R" none stR pR cR) + ((ownErrorCount (mkS "B" (some "R") stB pB cB) + 0) + 0),
         pR + ((pB + 0) + 0),
         cR + ((cB + 0) + 0))),
    mkSpanRow (mkS "A" (some "R") stA pA cA) 3 1 (ownErrorCount (mkS "A" (some "R") stA pA cA) + 0, pA + 0, cA + 0)],
   [], [], 2, 2, 4, 1⟩

/-- First concrete span for the trace-widening scenarios: trace "T",
window [10, 20]. -/
def exSpan1 : Span := { context := ⟨"T", "s1"⟩, start_time := 10, end_time := 20 }

/-- Second concrete span: same trace, starts earlier (5), ends inside the
stored window (15). -/
def exSpan2 : Span := { context := ⟨"T", "s2"⟩, start_time := 5, end_time := 15 }

/-- A non-LLM span creating the trace "T" with the wide window [0, 100]. -/
def exSpanWide : Span := { context := ⟨"T", "w"⟩, start_time := 0, end_time := 100 }

/-- An LLM-kind span on trace "T" with the narrow window [40, 50], carrying
session id "s1" and input messages. -/
def exSpanLLM : Span :=
  { context := ⟨"T", "l"⟩, start_time := 40, end_time := 50,
    attributes := { session_id := some (.str "s1"),
                    openinference_span_kind := some (.str "LLM"),
                    has_llm_input_messages := true } }

/-- The session-correlation trigger as the claim states it: the kind
attribute compares equal to "LLM" case-insensitively, a session identifier
is present (if textual, non-empty after stripping; a number, 0 included,
counts as present), and an input or output message list is present. -/
def ClaimSessionCond (a : Attributes) : Prop :=
  (∃ k, a.openinference_span_kind = some (AttrValue.str k) ∧ pyLower k = pyLower llmKindValue)
  ∧ (∃ v, a.session_id = some v ∧ ∀ t, v = AttrValue.str t → pyStrip t ≠ "")
  ∧ (a.has_llm_input_messages = true ∨ a.has_llm_output_messages = true)

/-- A stored row's own error contribution, recomputed from its stored
status string. -/
def rowOwnError (r : SpanRow) : Int := if r.status_code = "ERROR" then 1 else 0

/-- A stored row's own prompt-token contribution. -/
def rowOwnPrompt (r : SpanRow) : Int := r.llm_token_count_prompt.getD 0

/-- A stored row's own completion-token contribution. -/
def rowOwnCompletion (r : SpanRow) : Int := r.llm_token_count_completion.getD 0

/-- The cumulative invariant for one stored row: each cumulative counter is
the row's own contribution plus the sum of that counter over its currently
stored direct children. -/
def CumEqRow (spans : List SpanRow) (r : SpanRow) : Prop :=
  r.cumulative_error_count = rowOwnError r + (childSums spans r.span_id).1
  ∧ r.cumulative_llm_token_count_prompt = rowOwnPrompt r + (childSums spans r.span_id).2.1
  ∧ r.cumulative_llm_token_count_completion = rowOwnCompletion r + (childSums spans r.span_id).2.2

/-- Parent links strictly decrease a rank on span_ids (the spec's "parent
links point toward earlier-created spans"): rules out parent cycles. -/
def Ranked (spans : List SpanRow) (m : String → Nat) : Prop :=
  ∀ r ∈ spans, ∀ pid, r.parent_id = some pid → m pid < m r.span_id

/-- Structural well-formedness plus the cumulative invariant, maintained by
ingestion: span_ids and row ids are unique, row ids stay below the id
sequence, parent links are ranked, counters are nonnegative, and every row
satisfies the cumulative equation. -/
def GoodStore (s : Store) (m : String → Nat) : Prop :=
  (s.spans.map (fun r => r.span_id)).Nodup
  ∧ (s.spans.map (fun r => r.id)).Nodup
  ∧ (∀ r ∈ s.spans, r.id < s.nextSpanId)
  ∧ Ranked s.spans m
  ∧ (∀ r ∈ s.spans, 0 ≤ r.cumulative_error_count
      ∧ 0 ≤ r.cumulative_llm_token_count_prompt
      ∧ 0 ≤ r.cumulative_llm_token_count_completion)
  ∧ (∀ r ∈ s.spans, CumEqRow s.spans r)

/-- The stored transitive ancestors reachable by walking parent_id upward
from a starting parent identifier over stored rows only: the row whose
span_id is the identifier, then the row whose span_id is that row's
parent_id, and so on; a missing row ends the walk. -/
inductive ReachesUp (spans : List SpanRow) : Option String → SpanRow → Prop where
  | here (r : SpanRow) : r ∈ spans → ReachesUp spans (some r.span_id) r
  | up (r' r : SpanRow) : r' ∈ spans → ReachesUp spans r'.parent_id r →
      ReachesUp spans (some r'.span_id) r

/-- Store used by the C4 witness: one project, one trace, the root span "R"
already stored. -/
def c4Store : Store :=
  ⟨[⟨1, "p"⟩], [⟨1, "T", 1, 0, 10⟩],
   [mkSpanRow (mkS "R" none SpanStatusCode.OK 1 2) 1 1 (0, 1, 2)], [], [], 2, 2, 2, 1⟩

/-- The child span arriving after the root, for the C4 witness. -/
def c4Span : Span := mkS "CC" (some "R") SpanStatusCode.ERROR 3 4


/-- C1: Order independence of ingestion: for a trace with root R and children
A and B, each carrying its own error/token contributions, ingesting in the
orders [A, B, R], [R, A, B] and [B, R, A] (each call committed before the
next) yields identical final cumulative_error_count,
cumulative_llm_token_count_prompt and cumulative_llm_token_count_completion
values on the stored rows of R, A and B. -/
theorem C1_order_independence (stR stA stB : SpanStatusCode) (pR cR pA cA pB cB : Int) :
    (spanCounters (ingestAll [(mkS "A" (some "R") stA pA cA, "p"), (mkS "B" (some "R") stB pB cB, "p"), (mkS "R" none stR pR cR, "p")]) "R"
       = spanCounters (ingestAll [(mkS "R" none stR pR cR, "p"), (mkS "A" (some "R") stA pA cA, "p"), (mkS "B" (some "R") stB pB cB, "p")]) "R"
     ∧ spanCounters (ingestAll [(mkS "R" none stR pR cR, "p"), (mkS "A" (some "R") stA pA cA, "p"), (mkS "B" (some "R") stB pB cB, "p")]) "R"
       = spanCounters (ingestAll [(mkS "B" (some "R") stB pB cB, "p"), (mkS "R" none stR pR cR, "p"), (mkS "A" (some "R") stA pA cA, "p")]) "R")
    ∧ (spanCounters (ingestAll [(mkS "A" (some "R") stA pA cA, "p"), (mkS "B" (some "R") stB pB cB, "p"), (mkS "R" none stR pR cR, "p")]) "A"
       = spanCounters (ingestAll [(mkS "R" none stR pR cR, "p"), (mkS "A" (some "R") stA pA cA, "p"), (mkS "B" (some "R") stB pB cB, "p")]) "A"
     ∧ spanCounters (ingestAll [(mkS "R" none stR pR cR, "p"), (mkS "A" (some "R") stA pA cA, "p"), (mkS "B" (some "R") stB pB cB, "p")]) "A"
       = spanCounters (ingestAll [(mkS "B" (some "R") stB pB cB, "p"), (mkS "R" none stR pR cR, "p"), (mkS "A" (some "R") stA pA cA, "p")]) "A")
    ∧ (spanCounters (ingestAll [(mkS "A" (some "R") stA pA cA, "p"), (mkS "B" (some "R") stB pB cB, "p"), (mkS "R" none stR pR cR, "p")]) "B"
       = spanCounters (ingestAll [(mkS "R" none stR pR cR, "p"), (mkS "A" (some "R") stA pA cA, "p"), (mkS "B" (some "R") stB pB cB, "p")]) "B"
     ∧ spanCounters (ingestAll [(mkS "R" none stR pR cR, "p"), (mkS "A" (some "R") stA pA cA, "p"), (mkS "B" (some "R") stB pB cB, "p")]) "B"
       = spanCounters (ingestAll [(mkS "B" (some "R") stB pB cB, "p"), (mkS "R" none stR pR cR, "p"), (mkS "A" (some "R") stA pA cA, "p")]) "B") := by
  have q1 : ingestAll [(mkS "A" (some "R") stA pA cA, "p"), (mkS "B" (some "R") stB pB cB, "p"), (mkS "R" none stR pR cR, "p")]
      = (insert_span (insert_span (insert_span Store.empty (mkS "A" (some "R") stA pA cA) "p").2 (mkS "B" (some "R") stB pB cB) "p").2 (mkS "R" none stR pR cR) "p").2 := rfl
  have e1 : (insert_span Store.empty (mkS "A" (some "R") stA pA cA) "p").2 = stABR1 stA pA cA := rfl
  have e2 : (insert_span (stABR1 stA pA cA) (mkS "B" (some "R") stB pB cB) "p").2 = stABR2 stA stB pA cA pB cB := rfl
  have e3 : (insert_span (stABR2 stA stB pA cA pB cB) (mkS "R" none stR pR cR) "p").2 = stABR3 stR stA stB pR cR pA cA pB cB := rfl
  have q2 : ingestAll [(mkS "R" none stR pR cR, "p"), (mkS "A" (some "R") stA pA cA, "p"), (mkS "B" (some "R") stB pB cB, "p")]
      = (insert_span (insert_span (insert_span Store.empty (mkS "R" none stR pR cR) "p").2 (mkS "A" (some "R") stA pA cA) "p").2 (mkS "B" (some "R") stB pB cB) "p").2 := rfl
  have f1 : (insert_span Store.empty (mkS "R" none stR pR cR) "p").2 = stRAB1 stR pR cR := rfl
  have f2 : (insert_span (stRAB1 stR pR cR) (mkS "A" (some "R") stA pA cA) "p").2 = stRAB2 stR stA pR cR pA cA := rfl
  have f3 : (insert_span (stRAB2 stR stA pR cR pA cA) (mkS "B" (some "R") stB pB cB) "p").2 = stRAB3 stR stA stB pR cR pA cA pB cB := rfl
  have q3 : ingestAll [(mkS "B" (some "R") stB pB cB, "p"), (mkS "R" none stR pR cR, "p"), (mkS "A" (some "R") stA pA cA, "p")]
      = (insert_span (insert_span (insert_span Store.empty (mkS "B" (some "R") stB pB cB) "p").2 (mkS "R" none stR pR cR) "p").2 (mkS "A" (some "R") stA pA cA) "p").2 := rfl
  have g1 : (insert_span Store.empty (mkS "B" (some "R") stB pB cB) "p").2 = stBRA1 stB pB cB := rfl
  have g2 : (insert_span (stBRA1 stB pB cB) (mkS "R" none stR pR cR) "p").2 = stBRA2 stR stB pR cR pB cB := rfl
  have g3 : (insert_span (stBRA2 stR stB pR cR pB cB) (mkS "A" (some "R") stA pA cA) "p").2 = stBRA3 stR stA stB pR cR pA cA pB cB := rfl
  have cR1 : spanCounters (stABR3 stR stA stB pR cR pA cA pB cB) "R"
      = some (ownErrorCount (mkS "R" none stR pR cR) + ((ownErrorCount (mkS "A" (some "R") stA pA cA) + 0) + ((ownErrorCount (mkS "B" (some "R") stB pB cB) + 0) + 0)),
              pR + ((pA + 0) + ((pB + 0) + 0)),
              cR + ((cA + 0) + ((cB + 0) + 0))) := rfl
  have cR2 : spanCounters (stRAB3 stR stA stB pR cR pA cA pB cB) "R"
      = some (((ownErrorCount (mkS "R" none stR pR cR) + 0) + (ownErrorCount (mkS "A" (some "R") stA pA cA) + 0)) + (ownErrorCount (mkS "B" (some "R") stB pB cB) + 0),
              ((pR + 0) + (pA + 0)) + (pB + 0),
              ((cR + 0) + (cA + 0)) + (cB + 0)) := rfl
  have cR3 : spanCounters (stBRA3 stR stA stB pR cR pA cA pB cB) "R"
      = some ((ownErrorCount (mkS "R" none stR pR cR) + ((ownErrorCount (mkS "B" (some "R") stB pB cB) + 0) + 0)) + (ownErrorCount (mkS "A" (some "R") stA pA cA) + 0),
              (pR + ((pB + 0) + 0)) + (pA + 0),
              (cR + ((cB + 0) + 0)) + (cA + 0)) := rfl
  rw [q1, e1, e2, e3, q2, f1, f2, f3, q3, g1, g2, g3, cR1, cR2, cR3]
  refine ⟨⟨?_, ?_⟩, ⟨?_, ?_⟩, ⟨?_, ?_⟩⟩
  · simp only [Option.some.injEq, Prod.mk.injEq]; omega
  · simp only [Option.some.injEq, Prod.mk.injEq]; omega
  · rfl
  · rfl
  · rfl
  · rfl

/-! Frame lemmas: each phase of the pipeline touches only its own tables. -/

theorem resolveProject_spans (s : Store) (pn : String) : (resolveProject s pn).2.spans = s.spans := by
  unfold resolveProject; cases s.projects.find? (fun p => p.name == pn) <;> rfl

theorem resolveProject_traces (s : Store) (pn : String) : (resolveProject s pn).2.traces = s.traces := by
  unfold resolveProject; cases s.projects.find? (fun p => p.name == pn) <;> rfl

theorem resolveProject_sessions (s : Store) (pn : String) : (resolveProject s pn).2.sessions = s.sessions := by
  unfold resolveProject; cases s.projects.find? (fun p => p.name == pn) <;> rfl

theorem resolveProject_links (s : Store) (pn : String) : (resolveProject s pn).2.links = s.links := by
  unfold resolveProject; cases s.projects.find? (fun p => p.name == pn) <;> rfl

theorem resolveProject_nextSpanId (s : Store) (pn : String) : (resolveProject s pn).2.nextSpanId = s.nextSpanId := by
  unfold resolveProject; cases s.projects.find? (fun p => p.name == pn) <;> rfl

theorem resolveProject_nextSessionId (s : Store) (pn : String) : (resolveProject s pn).2.nextSessionId = s.nextSessionId := by
  unfold resolveProject; cases s.projects.find? (fun p => p.name == pn) <;> rfl

theorem upsertTrace_spans (s : Store) (sp : Span) (pid : Nat) : (upsertTrace s sp pid).2.spans = s.spans := by
  unfold upsertTrace
  cases s.traces.find? (fun t => t.trace_id == sp.context.trace_id) with
  | none => rfl
  | some t => dsimp only; split <;> rfl

theorem upsertTrace_projects (s : Store) (sp : Span) (pid : Nat) : (upsertTrace s sp pid).2.projects = s.projects := by
  unfold upsertTrace
  cases s.traces.find? (fun t => t.trace_id == sp.context.trace_id) with
  | none => rfl
  | some t => dsimp only; split <;> rfl

theorem upsertTrace_sessions (s : Store) (sp : Span) (pid : Nat) : (upsertTrace s sp pid).2.sessions = s.sessions := by
  unfold upsertTrace
  cases s.traces.find? (fun t => t.trace_id == sp.context.trace_id) with
  | none => rfl
  | some t => dsimp only; split <;> rfl

theorem upsertTrace_links (s : Store) (sp : Span) (pid : Nat) : (upsertTrace s sp pid).2.links = s.links := by
  unfold upsertTrace
  cases s.traces.find? (fun t => t.trace_id == sp.context.trace_id) with
  | none => rfl
  | some t => dsimp only; split <;> rfl

theorem upsertTrace_nextSpanId (s : Store) (sp : Span) (pid : Nat) : (upsertTrace s sp pid).2.nextSpanId = s.nextSpanId := by
  unfold upsertTrace
  cases s.traces.find? (fun t => t.trace_id == sp.context.trace_id) with
  | none => rfl
  | some t => dsimp only; split <;> rfl

theorem upsertTrace_nextSessionId (s : Store) (sp : Span) (pid : Nat) : (upsertTrace s sp pid).2.nextSessionId = s.nextSessionId := by
  unfold upsertTrace
  cases s.traces.find? (fun t => t.trace_id == sp.context.trace_id) with
  | none => rfl
  | some t => dsimp only; split <;> rfl

theorem correlateSession_spans (s : Store) (sp : Span) (pid : Nat) (tr : TraceRow) (srid : Nat) :
    (correlateSession s sp pid tr srid).spans = s.spans := by
  unfold correlateSession
  cases sp.attributes.session_id with
  | none => rfl
  | some v =>
      dsimp only
      split
      · cases s.sessions.find? (fun ps => ps.session_id == attrToSessionKey v) <;> rfl
      · rfl

theorem correlateSession_traces (s : Store) (sp : Span) (pid : Nat) (tr : TraceRow) (srid : Nat) :
    (correlateSession s sp pid tr srid).traces = s.traces := by
  unfold correlateSession
  cases sp.attributes.session_id with
  | none => rfl
  | some v =>
      dsimp only
      split
      · cases s.sessions.find? (fun ps => ps.session_id == attrToSessionKey v) <;> rfl
      · rfl

theorem correlateSession_projects (s : Store) (sp : Span) (pid : Nat) (tr : TraceRow) (srid : Nat) :
    (correlateSession s sp pid tr srid).projects = s.projects := by
  unfold correlateSession
  cases sp.attributes.session_id with
  | none => rfl
  | some v =>
      dsimp only
      split
      · cases s.sessions.find? (fun ps => ps.session_id == attrToSessionKey v) <;> rfl
      · rfl

/-! Branch characterizations of the pipeline. -/

theorem insert_span_dup (s : Store) (sp : Span) (pn : String)
    (h : s.spans.any (fun r => r.span_id == sp.context.span_id) = true) :
    insert_span s sp pn =
      (none, (upsertTrace (resolveProject s pn).2 sp (resolveProject s pn).1).2) := by
  unfold insert_span
  dsimp only
  rw [upsertTrace_spans, resolveProject_spans, h]
  rfl

theorem insert_span_fresh (s : Store) (sp : Span) (pn : String)
    (h : s.spans.any (fun r => r.span_id == sp.context.span_id) = false) :
    insert_span s sp pn =
      (some ⟨(resolveProject s pn).1⟩,
       correlateSession
        { (upsertTrace (resolveProject s pn).2 sp (resolveProject s pn).1).2 with
            spans := propagateAncestors
              (s.spans ++ [mkSpanRow sp s.nextSpanId (upsertTrace (resolveProject s pn).2 sp (resolveProject s pn).1).1.id (newSpanCum s.spans sp)])
              sp.parent_id (newSpanCum s.spans sp),
            nextSpanId := s.nextSpanId + 1 }
        sp (resolveProject s pn).1 (upsertTrace (resolveProject s pn).2 sp (resolveProject s pn).1).1 s.nextSpanId) := by
  unfold insert_span
  dsimp only
  rw [upsertTrace_spans, resolveProject_spans, upsertTrace_nextSpanId, resolveProject_nextSpanId, h]
  rfl

theorem correlateSession_guard_false (s : Store) (sp : Span) (pid : Nat) (tr : TraceRow) (srid : Nat)
    (h : sessionGuard sp.attributes = false) :
    correlateSession s sp pid tr srid = s := by
  unfold correlateSession
  cases hv : sp.attributes.session_id with
  | none => rfl
  | some v => rw [h]; rfl

theorem correlateSession_not_found (s : Store) (sp : Span) (pid : Nat) (tr : TraceRow) (srid : Nat) (v : AttrValue)
    (hg : sessionGuard sp.attributes = true)
    (hv : sp.attributes.session_id = some v)
    (hf : s.sessions.find? (fun ps => ps.session_id == attrToSessionKey v) = none) :
    correlateSession s sp pid tr srid =
      { s with
          sessions := s.sessions ++
            [⟨s.nextSessionId, attrToSessionKey v, sp.attributes.user_id, pid, sp.start_time, sp.end_time⟩],
          nextSessionId := s.nextSessionId + 1,
          links := s.links ++
            [⟨s.nextSessionId, attrToSessionKey v, sp.attributes.user_id, sp.start_time, srid, tr.id, pid⟩] } := by
  unfold correlateSession
  rw [hv]
  dsimp only
  rw [hg, hf]
  rfl

theorem correlateSession_found (s : Store) (sp : Span) (pid : Nat) (tr : TraceRow) (srid : Nat)
    (v : AttrValue) (ps : ProjectSessionRow)
    (hg : sessionGuard sp.attributes = true)
    (hv : sp.attributes.session_id = some v)
    (hf : s.sessions.find? (fun q => q.session_id == attrToSessionKey v) = some ps) :
    correlateSession s sp pid tr srid =
      { s with
          sessions := s.sessions.map (fun q =>
            if q.id == ps.id then
              { ps with
                  start_time := if tr.start_time < ps.start_time then tr.start_time else ps.start_time,
                  end_time := if ps.end_time < tr.end_time then tr.end_time else ps.end_time,
                  session_user := if ps.session_user = none then sp.attributes.user_id else ps.session_user,
                  project_id := if ps.project_id ≠ pid then pid else ps.project_id }
            else q),
          links := s.links ++
            [⟨ps.id, attrToSessionKey v, sp.attributes.user_id, sp.start_time, srid, tr.id, pid⟩] } := by
  unfold correlateSession
  rw [hv]
  dsimp only
  rw [hg, hf]
  rfl

theorem resolveProject_found (s : Store) (pn : String) (p : ProjectRow)
    (h : s.projects.find? (fun q => q.name == pn) = some p) :
    resolveProject s pn = (p.id, s) := by
  unfold resolveProject; rw [h]

theorem resolveProject_new (s : Store) (pn : String)
    (h : s.projects.find? (fun q => q.name == pn) = none) :
    resolveProject s pn =
      (s.nextProjectId,
       { s with projects := s.projects ++ [⟨s.nextProjectId, pn⟩],
                nextProjectId := s.nextProjectId + 1 }) := by
  unfold resolveProject; rw [h]

theorem upsertTrace_new (s : Store) (sp : Span) (pid : Nat)
    (h : s.traces.find? (fun u => u.trace_id == sp.context.trace_id) = none) :
    upsertTrace s sp pid =
      (⟨s.nextTraceId, sp.context.trace_id, pid, sp.start_time, sp.end_time⟩,
       { s with traces := s.traces ++ [⟨s.nextTraceId, sp.context.trace_id, pid, sp.start_time, sp.end_time⟩],
                nextTraceId := s.nextTraceId + 1 }) := by
  unfold upsertTrace; rw [h]

theorem upsertTrace_found_traces (s : Store) (sp : Span) (pid : Nat) (t : TraceRow)
    (ht : s.traces.find? (fun u => u.trace_id == sp.context.trace_id) = some t) :
    (upsertTrace s sp pid).2.traces =
      if t.end_time < sp.end_time ∨ sp.start_time < t.start_time then
        s.traces.map (fun u =>
          if u.id == t.id then
            { u with start_time := min t.start_time sp.start_time,
                     end_time := max t.end_time sp.end_time,
                     project_rowid := if t.end_time < sp.end_time then pid else t.project_rowid }
          else u)
      else s.traces := by
  unfold upsertTrace
  rw [ht]
  dsimp only
  have e1 : min t.start_time sp.start_time
      = if sp.start_time < t.start_time then sp.start_time else t.start_time := by
    split <;> omega
  have e2 : max t.end_time sp.end_time
      = if t.end_time < sp.end_time then sp.end_time else t.end_time := by
    split <;> omega
  simp only [e1, e2, Bool.or_eq_true, decide_eq_true_eq]
  split <;> rfl

theorem insert_span_traces (s : Store) (sp : Span) (pn : String) :
    (insert_span s sp pn).2.traces =
      (upsertTrace (resolveProject s pn).2 sp (resolveProject s pn).1).2.traces := by
  by_cases h : s.spans.any (fun r => r.span_id == sp.context.span_id) = true
  · rw [insert_span_dup s sp pn h]
  · rw [insert_span_fresh s sp pn (by simpa using h)]
    dsimp only
    rw [correlateSession_traces]

/-- C5 counterexample: after ingesting exSpan1 (window [10, 20], project
"p"), ingesting exSpan2 (window [5, 15]) under project "q" changes the
trace's start bound (10 becomes 5), the project resolved for that call is 2,
yet the stored trace keeps project 1: the claim's "whenever either bound
changed, the project is reassigned" is false (the code reassigns only when
the end bound grows). -/
theorem C5_counterexample :
    (insert_span (insert_span Store.empty exSpan1 "p").2 exSpan2 "q").2.traces
        = [⟨1, "T", 1, 5, 20⟩]
    ∧ (resolveProject (insert_span Store.empty exSpan1 "p").2 "q").1 = 2
    ∧ (1 : Nat) ≠ 2 := by decide

/-- C5 (amended): when a trace with the span's trace_id exists, its stored
window becomes [min(existing.start, span start), max(existing.end, span
end)]; the owning project is reassigned to the project resolved for this
call exactly when the end bound grew (not whenever either bound changed);
and nothing is written when neither bound changes. -/
theorem C5_trace_upsert (s : Store) (sp : Span) (pn : String) (t : TraceRow)
    (ht : s.traces.find? (fun u => u.trace_id == sp.context.trace_id) = some t) :
    (insert_span s sp pn).2.traces =
      if t.end_time < sp.end_time ∨ sp.start_time < t.start_time then
        s.traces.map (fun u =>
          if u.id == t.id then
            { u with start_time := min t.start_time sp.start_time,
                     end_time := max t.end_time sp.end_time,
                     project_rowid := if t.end_time < sp.end_time then (resolveProject s pn).1 else t.project_rowid }
          else u)
      else s.traces := by
  rw [insert_span_traces]
  have ht2 : (resolveProject s pn).2.traces.find? (fun u => u.trace_id == sp.context.trace_id) = some t := by
    rw [resolveProject_traces]; exact ht
  rw [upsertTrace_found_traces (resolveProject s pn).2 sp (resolveProject s pn).1 t ht2]
  rw [resolveProject_traces]

/-- Witness for C5_trace_upsert at a concrete store holding the trace
[10, 20] and the incoming span exSpan2 with window [5, 15]. -/
theorem C5_trace_upsert_witness :
    ((⟨[], [⟨1, "T", 1, 10, 20⟩], [], [], [], 1, 2, 1, 1⟩ : Store).traces.find?
        (fun u => u.trace_id == exSpan2.context.trace_id) = some ⟨1, "T", 1, 10, 20⟩)
    ∧ ((insert_span (⟨[], [⟨1, "T", 1, 10, 20⟩], [], [], [], 1, 2, 1, 1⟩ : Store) exSpan2 "q").2.traces =
        if (⟨1, "T", 1, 10, 20⟩ : TraceRow).end_time < exSpan2.end_time
            ∨ exSpan2.start_time < (⟨1, "T", 1, 10, 20⟩ : TraceRow).start_time then
          (⟨[], [⟨1, "T", 1, 10, 20⟩], [], [], [], 1, 2, 1, 1⟩ : Store).traces.map (fun u =>
            if u.id == (⟨1, "T", 1, 10, 20⟩ : TraceRow).id then
              { u with start_time := min (⟨1, "T", 1, 10, 20⟩ : TraceRow).start_time exSpan2.start_time,
                       end_time := max (⟨1, "T", 1, 10, 20⟩ : TraceRow).end_time exSpan2.end_time,
                       project_rowid := if (⟨1, "T", 1, 10, 20⟩ : TraceRow).end_time < exSpan2.end_time
                         then (resolveProject (⟨[], [⟨1, "T", 1, 10, 20⟩], [], [], [], 1, 2, 1, 1⟩ : Store) "q").1
                         else (⟨1, "T", 1, 10, 20⟩ : TraceRow).project_rowid }
            else u)
        else (⟨[], [⟨1, "T", 1, 10, 20⟩], [], [], [], 1, 2, 1, 1⟩ : Store).traces) :=
  ⟨by decide, C5_trace_upsert (⟨[], [⟨1, "T", 1, 10, 20⟩], [], [], [], 1, 2, 1, 1⟩ : Store)
    exSpan2 "q" ⟨1, "T", 1, 10, 20⟩ (by decide)⟩

/-- C6 (amended): insert_span returns a SpanInsertionEvent carrying the
project row id resolved for the call when the span was inserted, and none
when the span_id was a duplicate; it does not return the inserted span's
own storage identifier. -/
theorem C6_return_value (s : Store) (sp : Span) (pn : String) :
    (insert_span s sp pn).1 =
      if s.spans.any (fun r => r.span_id == sp.context.span_id) then none
      else some ⟨(resolveProject s pn).1⟩ := by
  by_cases h : s.spans.any (fun r => r.span_id == sp.context.span_id) = true
  · rw [insert_span_dup s sp pn h, h]; rfl
  · rw [insert_span_fresh s sp pn (by simpa using h)]
    have hfalse : s.spans.any (fun r => r.span_id == sp.context.span_id) = false := by simpa using h
    rw [hfalse]; rfl

/-- C6 counterexample: the second span inserted for project "p" gets the
span row id 2, but the call returns the event carrying 1 (the project row
id), so the return value is not the new span's storage identifier. -/
theorem C6_counterexample :
    (insert_span (insert_span Store.empty exSpan1 "p").2 exSpan2 "p").1 = some ⟨1⟩
    ∧ ((insert_span (insert_span Store.empty exSpan1 "p").2 exSpan2 "p").2.spans.filter
        (fun r => r.span_id == "s2")).map (fun r => r.id) = [2]
    ∧ (1 : Nat) ≠ 2 := by decide

/-! Support for the idempotence and duplicate-call claims. -/

theorem insert_span_projects (s : Store) (sp : Span) (pn : String) :
    (insert_span s sp pn).2.projects = (resolveProject s pn).2.projects := by
  by_cases h : s.spans.any (fun r => r.span_id == sp.context.span_id) = true
  · rw [insert_span_dup s sp pn h, upsertTrace_projects]
  · rw [insert_span_fresh s sp pn (by simpa using h)]
    dsimp only
    rw [correlateSession_projects]
    exact upsertTrace_projects _ _ _

theorem resolveProject_find_self (s : Store) (pn : String) :
    ∃ p, (resolveProject s pn).2.projects.find? (fun q => q.name == pn) = some p := by
  cases h : s.projects.find? (fun q => q.name == pn) with
  | some p =>
      refine ⟨p, ?_⟩
      rw [resolveProject_found s pn p h]
      exact h
  | none =>
      refine ⟨⟨s.nextProjectId, pn⟩, ?_⟩
      rw [resolveProject_new s pn h]
      dsimp only
      rw [List.find?_append, h]
      simp

theorem upsertTrace_find_self (s : Store) (sp : Span) (pid : Nat) :
    (upsertTrace s sp pid).2.traces.find? (fun u => u.trace_id == sp.context.trace_id)
      = some (upsertTrace s sp pid).1 := by
  cases ht : s.traces.find? (fun u => u.trace_id == sp.context.trace_id) with
  | none =>
      rw [upsertTrace_new s sp pid ht]
      dsimp only
      rw [List.find?_append, ht]
      simp
  | some t =>
      unfold upsertTrace
      rw [ht]
      dsimp only
      split
      · dsimp only
        rw [List.find?_map]
        have hfg : ((fun u => u.trace_id == sp.context.trace_id) ∘ (fun u : TraceRow =>
            if u.id == t.id then
              { u with
                  start_time := if sp.start_time < t.start_time then sp.start_time else t.start_time,
                  end_time := if t.end_time < sp.end_time then sp.end_time else t.end_time,
                  project_rowid := if t.end_time < sp.end_time then pid else t.project_rowid }
            else u))
            = (fun u : TraceRow => u.trace_id == sp.context.trace_id) := by
          funext u
          by_cases hu : u.id == t.id <;> simp [hu, Function.comp]
        rw [hfg, ht]
        simp
      · exact ht

theorem upsertTrace_window (s : Store) (sp : Span) (pid : Nat) :
    ¬ (upsertTrace s sp pid).1.end_time < sp.end_time
    ∧ ¬ sp.start_time < (upsertTrace s sp pid).1.start_time := by
  cases ht : s.traces.find? (fun u => u.trace_id == sp.context.trace_id) with
  | none =>
      rw [upsertTrace_new s sp pid ht]
      exact ⟨lt_irrefl _, lt_irrefl _⟩
  | some t =>
      unfold upsertTrace
      rw [ht]
      dsimp only
      split
      · constructor
        · dsimp only; split <;> omega
        · dsimp only; split <;> omega
      · rename_i hc
        simp only [Bool.or_eq_true, decide_eq_true_eq, not_or] at hc
        exact ⟨hc.1, hc.2⟩

theorem insert_span_any_self (s : Store) (sp : Span) (pn : String) :
    (insert_span s sp pn).2.spans.any (fun r => r.span_id == sp.context.span_id) = true := by
  by_cases h : s.spans.any (fun r => r.span_id == sp.context.span_id) = true
  · rw [insert_span_dup s sp pn h, upsertTrace_spans, resolveProject_spans]
    exact h
  · rw [insert_span_fresh s sp pn (by simpa using h)]
    dsimp only
    rw [correlateSession_spans]
    dsimp only [propagateAncestors]
    rw [List.any_eq_true]
    refine ⟨(fun r => if r.id ∈ ((ancestorChain (s.spans ++ [mkSpanRow sp s.nextSpanId (upsertTrace (resolveProject s pn).2 sp (resolveProject s pn).1).1.id (newSpanCum s.spans sp)]) sp.parent_id (s.spans ++ [mkSpanRow sp s.nextSpanId (upsertTrace (resolveProject s pn).2 sp (resolveProject s pn).1).1.id (newSpanCum s.spans sp)]).length).map (fun r => r.id)) then bumpRow (newSpanCum s.spans sp) r else r)
        (mkSpanRow sp s.nextSpanId (upsertTrace (resolveProject s pn).2 sp (resolveProject s pn).1).1.id (newSpanCum s.spans sp)), ?_, ?_⟩
    · exact List.mem_map_of_mem _ (List.mem_append_right _ (List.mem_singleton.mpr rfl))
    · dsimp only
      split <;> exact beq_self_eq_true _

theorem insert_span_noop (s : Store) (sp : Span) (pn : String) (p : ProjectRow) (tr : TraceRow)
    (hp : s.projects.find? (fun q => q.name == pn) = some p)
    (ht : s.traces.find? (fun u => u.trace_id == sp.context.trace_id) = some tr)
    (he : ¬ tr.end_time < sp.end_time) (hs : ¬ sp.start_time < tr.start_time)
    (hdup : s.spans.any (fun r => r.span_id == sp.context.span_id) = true) :
    insert_span s sp pn = (none, s) := by
  have h1 : resolveProject s pn = (p.id, s) := resolveProject_found s pn p hp
  have h2 : upsertTrace s sp p.id = (tr, s) := by
    unfold upsertTrace
    rw [ht]
    dsimp only
    have hc : (decide (tr.end_time < sp.end_time) || decide (sp.start_time < tr.start_time)) = false := by
      simp [he, hs]
    rw [hc]
    rfl
  rw [insert_span_dup s sp pn hdup, h1]
  dsimp only
  rw [h2]

/-- C3: Idempotence under retransmission: for every starting store, span and
project name, running insert_span a second time with the identical span is a
complete no-op: the second call returns none (the span_id hits the
uniqueness conflict) and leaves the entire stored state exactly as the first
call left it, so no ancestor propagation and no session correlation happen. -/
theorem C3_idempotent_retransmission (s0 : Store) (sp : Span) (pn : String) :
    insert_span ((insert_span s0 sp pn).2) sp pn = (none, (insert_span s0 sp pn).2) := by
  obtain ⟨p, hp⟩ := resolveProject_find_self s0 pn
  have hp1 : (insert_span s0 sp pn).2.projects.find? (fun q => q.name == pn) = some p := by
    rw [insert_span_projects]; exact hp
  have ht1 : (insert_span s0 sp pn).2.traces.find? (fun u => u.trace_id == sp.context.trace_id)
      = some (upsertTrace (resolveProject s0 pn).2 sp (resolveProject s0 pn).1).1 := by
    rw [insert_span_traces]
    exact upsertTrace_find_self _ _ _
  have hw := upsertTrace_window (resolveProject s0 pn).2 sp (resolveProject s0 pn).1
  exact insert_span_noop _ sp pn p _ hp1 ht1 hw.1 hw.2 (insert_span_any_self s0 sp pn)

/-- C10: a duplicate insert_span call returns none but is not a complete
no-op: the span table, sessions and links are untouched, yet a Project row
is still created when the name is new, and an existing trace's window is
still widened (with the project reassigned only when the end bound grew)
when the duplicate payload's times fall outside the stored window. -/
theorem C10_duplicate_partial_effects (s : Store) (sp : Span) (pn : String)
    (h : s.spans.any (fun r => r.span_id == sp.context.span_id) = true) :
    (insert_span s sp pn).1 = none
    ∧ (insert_span s sp pn).2.spans = s.spans
    ∧ (insert_span s sp pn).2.sessions = s.sessions
    ∧ (insert_span s sp pn).2.links = s.links
    ∧ (s.projects.find? (fun q => q.name == pn) = none →
        (insert_span s sp pn).2.projects = s.projects ++ [⟨s.nextProjectId, pn⟩])
    ∧ (∀ t, s.traces.find? (fun u => u.trace_id == sp.context.trace_id) = some t →
        (insert_span s sp pn).2.traces =
          if t.end_time < sp.end_time ∨ sp.start_time < t.start_time then
            s.traces.map (fun u =>
              if u.id == t.id then
                { u with start_time := min t.start_time sp.start_time,
                         end_time := max t.end_time sp.end_time,
                         project_rowid := if t.end_time < sp.end_time then (resolveProject s pn).1 else t.project_rowid }
              else u)
          else s.traces) := by
  rw [insert_span_dup s sp pn h]
  refine ⟨rfl, ?_, ?_, ?_, ?_, ?_⟩
  · rw [upsertTrace_spans, resolveProject_spans]
  · rw [upsertTrace_sessions, resolveProject_sessions]
  · rw [upsertTrace_links, resolveProject_links]
  · intro hnone
    rw [upsertTrace_projects, resolveProject_new s pn hnone]
  · intro t ht
    have ht2 : (resolveProject s pn).2.traces.find? (fun u => u.trace_id == sp.context.trace_id) = some t := by
      rw [resolveProject_traces]; exact ht
    rw [upsertTrace_found_traces (resolveProject s pn).2 sp (resolveProject s pn).1 t ht2]
    rw [resolveProject_traces]

/-- Witness for C10 at a store already holding exSpan1's row: the duplicate
call returns none, touches no span, session or link, creates project "p2"
(a new name), and widens the stored trace window [12, 18] to [10, 20]. -/
theorem C10_duplicate_partial_effects_witness :
    ((⟨[], [⟨1, "T", 1, 12, 18⟩], [mkSpanRow exSpan1 1 1 (0, 0, 0)], [], [], 1, 2, 2, 1⟩ : Store).spans.any
        (fun r => r.span_id == exSpan1.context.span_id) = true)
    ∧ ((insert_span (⟨[], [⟨1, "T", 1, 12, 18⟩], [mkSpanRow exSpan1 1 1 (0, 0, 0)], [], [], 1, 2, 2, 1⟩ : Store) exSpan1 "p2").1 = none
       ∧ (insert_span (⟨[], [⟨1, "T", 1, 12, 18⟩], [mkSpanRow exSpan1 1 1 (0, 0, 0)], [], [], 1, 2, 2, 1⟩ : Store) exSpan1 "p2").2.spans
          = (⟨[], [⟨1, "T", 1, 12, 18⟩], [mkSpanRow exSpan1 1 1 (0, 0, 0)], [], [], 1, 2, 2, 1⟩ : Store).spans
       ∧ (insert_span (⟨[], [⟨1, "T", 1, 12, 18⟩], [mkSpanRow exSpan1 1 1 (0, 0, 0)], [], [], 1, 2, 2, 1⟩ : Store) exSpan1 "p2").2.projects
          = [⟨1, "p2"⟩]
       ∧ (insert_span (⟨[], [⟨1, "T", 1, 12, 18⟩], [mkSpanRow exSpan1 1 1 (0, 0, 0)], [], [], 1, 2, 2, 1⟩ : Store) exSpan1 "p2").2.traces
          = [⟨1, "T", 1, 10, 20⟩]) := by
  refine ⟨by decide, ?_⟩
  have h := C10_duplicate_partial_effects
    (⟨[], [⟨1, "T", 1, 12, 18⟩], [mkSpanRow exSpan1 1 1 (0, 0, 0)], [], [], 1, 2, 2, 1⟩ : Store)
    exSpan1 "p2" (by decide)
  refine ⟨h.1, h.2.1, ?_, ?_⟩
  · rw [h.2.2.2.2.1 (by decide)]; decide
  · rw [h.2.2.2.2.2 ⟨1, "T", 1, 12, 18⟩ (by decide)]; decide

/-! The session correlator's guard and its effects. -/

theorem sessionGuard_iff (a : Attributes) : sessionGuard a = true ↔ ClaimSessionCond a := by
  unfold sessionGuard ClaimSessionCond
  cases hs : a.session_id with
  | none => simp [hs]
  | some v =>
      cases hk : a.openinference_span_kind with
      | none =>
          cases v <;> simp [hs, hk]
      | some kv =>
          cases kv with
          | str k =>
              cases v with
              | str t =>
                  simp only [Bool.and_eq_true, Bool.or_eq_true, beq_iff_eq, hs, hk,
                    Bool.not_eq_true', beq_eq_false_iff_ne, ne_eq]
                  constructor
                  · rintro ⟨⟨h1, h2⟩, h3⟩
                    exact ⟨⟨k, rfl, h2⟩, ⟨AttrValue.str t, rfl, fun u hu => by cases hu; exact h1⟩, h3⟩
                  · rintro ⟨⟨k2, hk2, h2⟩, ⟨v2, hv2, h1⟩, h3⟩
                    cases hk2
                    cases hv2
                    exact ⟨⟨h1 t rfl, h2⟩, h3⟩
              | num n =>
                  simp only [Bool.and_eq_true, Bool.or_eq_true, beq_iff_eq, hs, hk, true_and]
                  constructor
                  · rintro ⟨h2, h3⟩
                    exact ⟨⟨k, rfl, h2⟩, ⟨AttrValue.num n, rfl, fun u hu => by cases hu⟩, h3⟩
                  · rintro ⟨⟨k2, hk2, h2⟩, _, h3⟩
                    cases hk2
                    exact ⟨h2, h3⟩
          | num m =>
              cases v <;> simp [hs, hk]

theorem sessionGuard_some (a : Attributes) (h : sessionGuard a = true) :
    ∃ v, a.session_id = some v := by
  unfold sessionGuard at h
  cases hs : a.session_id with
  | none => rw [hs] at h; exact absurd h (by simp)
  | some v => exact ⟨v, rfl⟩

theorem insert_span_links_guard_true (s : Store) (sp : Span) (pn : String)
    (hfresh : s.spans.any (fun r => r.span_id == sp.context.span_id) = false)
    (hg : sessionGuard sp.attributes = true) :
    (insert_span s sp pn).2.links.length = s.links.length + 1 := by
  obtain ⟨v, hv⟩ := sessionGuard_some sp.attributes hg
  rw [insert_span_fresh s sp pn hfresh]
  dsimp only
  cases hf : s.sessions.find? (fun q => q.session_id == attrToSessionKey v) with
  | none =>
      rw [correlateSession_not_found _ sp _ _ _ v hg hv
        (by dsimp only; rw [upsertTrace_sessions, resolveProject_sessions]; exact hf)]
      dsimp only
      rw [List.length_append, upsertTrace_links, resolveProject_links]
      rfl
  | some ps =>
      rw [correlateSession_found _ sp _ _ _ v ps hg hv
        (by dsimp only; rw [upsertTrace_sessions, resolveProject_sessions]; exact hf)]
      dsimp only
      rw [List.length_append, upsertTrace_links, resolveProject_links]
      rfl

theorem insert_span_session_frame (s : Store) (sp : Span) (pn : String)
    (hg : sessionGuard sp.attributes = false) :
    (insert_span s sp pn).2.sessions = s.sessions ∧ (insert_span s sp pn).2.links = s.links := by
  by_cases h : s.spans.any (fun r => r.span_id == sp.context.span_id) = true
  · rw [insert_span_dup s sp pn h]
    constructor
    · rw [upsertTrace_sessions, resolveProject_sessions]
    · rw [upsertTrace_links, resolveProject_links]
  · rw [insert_span_fresh s sp pn (by simpa using h)]
    dsimp only
    rw [correlateSession_guard_false _ sp _ _ _ hg]
    constructor
    · dsimp only; rw [upsertTrace_sessions, resolveProject_sessions]
    · dsimp only; rw [upsertTrace_links, resolveProject_links]

/-- C7: the session correlator runs for a newly inserted span exactly when
the claim's three conditions hold: the kind attribute equals "LLM"
case-insensitively, a session identifier is present (stripped non-empty when
textual; the number 0 counts), and an input or output message list is
present; when any condition fails, no ProjectSession and no ChatSessionSpan
row is written. -/
theorem C7_session_trigger (s : Store) (sp : Span) (pn : String)
    (hfresh : s.spans.any (fun r => r.span_id == sp.context.span_id) = false) :
    ((insert_span s sp pn).2.links.length = s.links.length + 1 ↔ ClaimSessionCond sp.attributes)
    ∧ (¬ ClaimSessionCond sp.attributes →
        (insert_span s sp pn).2.sessions = s.sessions ∧ (insert_span s sp pn).2.links = s.links) := by
  constructor
  · constructor
    · intro hlen
      by_contra hc
      have hg : sessionGuard sp.attributes = false := by
        cases hgb : sessionGuard sp.attributes with
        | true => exact absurd ((sessionGuard_iff sp.attributes).mp hgb) hc
        | false => rfl
      have hfr := (insert_span_session_frame s sp pn hg).2
      rw [hfr] at hlen
      omega
    · intro hc
      exact insert_span_links_guard_true s sp pn hfresh ((sessionGuard_iff sp.attributes).mpr hc)
  · intro hc
    have hg : sessionGuard sp.attributes = false := by
      cases hgb : sessionGuard sp.attributes with
      | true => exact absurd ((sessionGuard_iff sp.attributes).mp hgb) hc
      | false => rfl
    exact insert_span_session_frame s sp pn hg

/-- Witness for C7 at the empty store with the LLM-kind session span. -/
theorem C7_session_trigger_witness :
    (Store.empty.spans.any (fun r => r.span_id == exSpanLLM.context.span_id) = false)
    ∧ (((insert_span Store.empty exSpanLLM "p").2.links.length = Store.empty.links.length + 1
          ↔ ClaimSessionCond exSpanLLM.attributes)
       ∧ (¬ ClaimSessionCond exSpanLLM.attributes →
            (insert_span Store.empty exSpanLLM "p").2.sessions = Store.empty.sessions
            ∧ (insert_span Store.empty exSpanLLM "p").2.links = Store.empty.links)) :=
  ⟨by decide, C7_session_trigger Store.empty exSpanLLM "p" (by decide)⟩

/-- C8 counterexample: the trace "T" already spans [0, 100] when the LLM
span with window [40, 50] arrives and creates the session; the created
ProjectSession window is the span's own [40, 50], not the trace's [0, 100]
as the claim states. -/
theorem C8_counterexample :
    (insert_span (insert_span Store.empty exSpanWide "p").2 exSpanLLM "p").2.sessions
        = [⟨1, "s1", none, 1, 40, 50⟩]
    ∧ (insert_span (insert_span Store.empty exSpanWide "p").2 exSpanLLM "p").2.traces
        = [⟨1, "T", 1, 0, 100⟩]
    ∧ ¬ ((40 : Int) = 0 ∧ (50 : Int) = 100) := by decide

/-- C8 (amended): when the correlator fires and no ProjectSession with the
session key exists, exactly one ProjectSession is created whose window is
the span's own [start_time, end_time] (not the trace's window), owned by the
project resolved for this call, with the span's user identifier when known;
and exactly one ChatSessionSpan link is appended. -/
theorem C8_session_creation (s : Store) (sp : Span) (pn : String) (v : AttrValue)
    (hfresh : s.spans.any (fun r => r.span_id == sp.context.span_id) = false)
    (hg : sessionGuard sp.attributes = true)
    (hv : sp.attributes.session_id = some v)
    (hnf : s.sessions.find? (fun q => q.session_id == attrToSessionKey v) = none) :
    (insert_span s sp pn).2.sessions =
      s.sessions ++ [⟨s.nextSessionId, attrToSessionKey v, sp.attributes.user_id,
                      (resolveProject s pn).1, sp.start_time, sp.end_time⟩]
    ∧ (insert_span s sp pn).2.links =
      s.links ++ [⟨s.nextSessionId, attrToSessionKey v, sp.attributes.user_id, sp.start_time,
                   s.nextSpanId,
                   (upsertTrace (resolveProject s pn).2 sp (resolveProject s pn).1).1.id,
                   (resolveProject s pn).1⟩] := by
  rw [insert_span_fresh s sp pn hfresh]
  dsimp only
  rw [correlateSession_not_found _ sp _ _ _ v hg hv
    (by dsimp only; rw [upsertTrace_sessions, resolveProject_sessions]; exact hnf)]
  dsimp only
  constructor
  · rw [upsertTrace_sessions, resolveProject_sessions,
        upsertTrace_nextSessionId, resolveProject_nextSessionId]
  · rw [upsertTrace_links, resolveProject_links,
        upsertTrace_nextSessionId, resolveProject_nextSessionId]

/-- Witness for C8_session_creation at the empty store. -/
theorem C8_session_creation_witness :
    ((Store.empty.spans.any (fun r => r.span_id == exSpanLLM.context.span_id) = false)
     ∧ sessionGuard exSpanLLM.attributes = true
     ∧ exSpanLLM.attributes.session_id = some (.str "s1")
     ∧ Store.empty.sessions.find? (fun q => q.session_id == attrToSessionKey (.str "s1")) = none)
    ∧ ((insert_span Store.empty exSpanLLM "p").2.sessions =
        Store.empty.sessions ++ [⟨Store.empty.nextSessionId, attrToSessionKey (.str "s1"),
          exSpanLLM.attributes.user_id, (resolveProject Store.empty "p").1,
          exSpanLLM.start_time, exSpanLLM.end_time⟩]
       ∧ (insert_span Store.empty exSpanLLM "p").2.links =
        Store.empty.links ++ [⟨Store.empty.nextSessionId, attrToSessionKey (.str "s1"),
          exSpanLLM.attributes.user_id, exSpanLLM.start_time, Store.empty.nextSpanId,
          (upsertTrace (resolveProject Store.empty "p").2 exSpanLLM (resolveProject Store.empty "p").1).1.id,
          (resolveProject Store.empty "p").1⟩]) :=
  ⟨⟨by decide, by decide, by decide, by decide⟩,
   C8_session_creation Store.empty exSpanLLM "p" (.str "s1")
     (by decide) (by decide) (by decide) (by decide)⟩

/-- C9: when the correlator fires and a ProjectSession with the session key
exists, no second ProjectSession is created (the table keeps its length);
the session's window is widened to include the trace's window (min of
starts, max of ends), its user is set only when previously unset, its
project is reassigned to the resolved one, and one new ChatSessionSpan link
is always appended. -/
theorem C9_session_update (s : Store) (sp : Span) (pn : String) (v : AttrValue) (ps : ProjectSessionRow)
    (hfresh : s.spans.any (fun r => r.span_id == sp.context.span_id) = false)
    (hg : sessionGuard sp.attributes = true)
    (hv : sp.attributes.session_id = some v)
    (hf : s.sessions.find? (fun q => q.session_id == attrToSessionKey v) = some ps) :
    (insert_span s sp pn).2.sessions =
      s.sessions.map (fun q =>
        if q.id == ps.id then
          { ps with
              start_time := min ps.start_time
                (upsertTrace (resolveProject s pn).2 sp (resolveProject s pn).1).1.start_time,
              end_time := max ps.end_time
                (upsertTrace (resolveProject s pn).2 sp (resolveProject s pn).1).1.end_time,
              session_user := if ps.session_user = none then sp.attributes.user_id else ps.session_user,
              project_id := (resolveProject s pn).1 }
        else q)
    ∧ (insert_span s sp pn).2.sessions.length = s.sessions.length
    ∧ (insert_span s sp pn).2.links =
      s.links ++ [⟨ps.id, attrToSessionKey v, sp.attributes.user_id, sp.start_time,
                   s.nextSpanId,
                   (upsertTrace (resolveProject s pn).2 sp (resolveProject s pn).1).1.id,
                   (resolveProject s pn).1⟩] := by
  rw [insert_span_fresh s sp pn hfresh]
  dsimp only
  rw [correlateSession_found _ sp _ _ _ v ps hg hv
    (by dsimp only; rw [upsertTrace_sessions, resolveProject_sessions]; exact hf)]
  dsimp only
  have e1 : min ps.start_time (upsertTrace (resolveProject s pn).2 sp (resolveProject s pn).1).1.start_time
      = if (upsertTrace (resolveProject s pn).2 sp (resolveProject s pn).1).1.start_time < ps.start_time
        then (upsertTrace (resolveProject s pn).2 sp (resolveProject s pn).1).1.start_time
        else ps.start_time := by
    split <;> omega
  have e2 : max ps.end_time (upsertTrace (resolveProject s pn).2 sp (resolveProject s pn).1).1.end_time
      = if ps.end_time < (upsertTrace (resolveProject s pn).2 sp (resolveProject s pn).1).1.end_time
        then (upsertTrace (resolveProject s pn).2 sp (resolveProject s pn).1).1.end_time
        else ps.end_time := by
    split <;> omega
  have e3 : (if ps.project_id ≠ (resolveProject s pn).1 then (resolveProject s pn).1
             else ps.project_id) = (resolveProject s pn).1 := by
    split <;> omega
  refine ⟨?_, ?_, ?_⟩
  · rw [upsertTrace_sessions, resolveProject_sessions]
    simp only [e1, e2, e3]
  · rw [upsertTrace_sessions, resolveProject_sessions, List.length_map]
  · rw [upsertTrace_links, resolveProject_links]

/-- Witness for C9_session_update at a store holding the session
("s1", window [50, 60], project 1, no user). -/
theorem C9_session_update_witness :
    (((⟨[], [], [], [⟨1, "s1", none, 1, 50, 60⟩], [], 1, 1, 1, 2⟩ : Store).spans.any
        (fun r => r.span_id == exSpanLLM.context.span_id) = false)
     ∧ sessionGuard exSpanLLM.attributes = true
     ∧ exSpanLLM.attributes.session_id = some (.str "s1")
     ∧ (⟨[], [], [], [⟨1, "s1", none, 1, 50, 60⟩], [], 1, 1, 1, 2⟩ : Store).sessions.find?
        (fun q => q.session_id == attrToSessionKey (.str "s1")) = some ⟨1, "s1", none, 1, 50, 60⟩)
    ∧ ((insert_span (⟨[], [], [], [⟨1, "s1", none, 1, 50, 60⟩], [], 1, 1, 1, 2⟩ : Store) exSpanLLM "p").2.sessions.length
        = (⟨[], [], [], [⟨1, "s1", none, 1, 50, 60⟩], [], 1, 1, 1, 2⟩ : Store).sessions.length) := by
  refine ⟨⟨by decide, by decide, by decide, by decide⟩, ?_⟩
  exact (C9_session_update (⟨[], [], [], [⟨1, "s1", none, 1, 50, 60⟩], [], 1, 1, 1, 2⟩ : Store)
    exSpanLLM "p" (.str "s1") ⟨1, "s1", none, 1, 50, 60⟩
    (by decide) (by decide) (by decide) (by decide)).2.1

theorem chain_mem {S : List SpanRow} : ∀ {f : Nat} {p : Option String} {r : SpanRow},
    r ∈ ancestorChain S p f → r ∈ S := by
  intro f
  induction f with
  | zero => intro p r h; cases p <;> simp [ancestorChain] at h
  | succ n ih =>
      intro p r h
      cases p with
      | none => simp [ancestorChain] at h
      | some pid =>
          rw [ancestorChain] at h
          cases hf : S.find? (fun x => x.span_id == pid) with
          | none => rw [hf] at h; simp at h
          | some r1 =>
              rw [hf] at h
              rcases List.mem_cons.mp h with h1 | h2
              · subst h1; exact List.mem_of_find?_eq_some hf
              · exact ih h2

theorem find?_sid_eq {S : List SpanRow} {pid : String} {r : SpanRow}
    (h : S.find? (fun x => x.span_id == pid) = some r) : r.span_id = pid := by
  have := List.find?_some h
  exact beq_iff_eq.mp this

theorem find?_sid_self {S : List SpanRow} (hn : (S.map (fun r => r.span_id)).Nodup) :
    ∀ {r : SpanRow}, r ∈ S → S.find? (fun x => x.span_id == r.span_id) = some r := by
  induction S with
  | nil => intro r h; simp at h
  | cons a l ih =>
      intro r hr
      rcases List.mem_cons.mp hr with h1 | h2
      · subst h1
        simp
      · have hn2 : (a.span_id :: l.map (fun r => r.span_id)).Nodup := by simpa using hn
        have hna : a.span_id ∉ l.map (fun r => r.span_id) := (List.nodup_cons.mp hn2).1
        have hne : a.span_id ≠ r.span_id := by
          intro he
          exact hna (he ▸ List.mem_map_of_mem _ h2)
        rw [List.find?_cons_of_neg]
        · exact ih (List.nodup_cons.mp hn2).2 h2
        · simpa using hne

theorem chain_m_le {S : List SpanRow} {m : String → Nat} (hr : Ranked S m) :
    ∀ {f : Nat} {p : String} {r : SpanRow},
    r ∈ ancestorChain S (some p) f → m r.span_id ≤ m p := by
  intro f
  induction f with
  | zero => intro p r h; simp [ancestorChain] at h
  | succ n ih =>
      intro p r h
      rw [ancestorChain] at h
      cases hf : S.find? (fun x => x.span_id == p) with
      | none => rw [hf] at h; simp at h
      | some r1 =>
          rw [hf] at h
          rcases List.mem_cons.mp h with h1 | h2
          · subst h1; exact le_of_eq (congrArg m (find?_sid_eq hf))
          · cases hp : r1.parent_id with
            | none =>
                rw [hp] at h2
                cases n <;> simp [ancestorChain] at h2
            | some p2 =>
                rw [hp] at h2
                have h3 := ih h2
                have h4 := hr r1 (List.mem_of_find?_eq_some hf) p2 hp
                have h5 : m r1.span_id = m p := congrArg m (find?_sid_eq hf)
                omega

theorem chain_nodup {S : List SpanRow} {m : String → Nat} (hr : Ranked S m) :
    ∀ {f : Nat} {p : Option String}, (ancestorChain S p f).Nodup := by
  intro f
  induction f with
  | zero => intro p; cases p <;> simp [ancestorChain]
  | succ n ih =>
      intro p
      cases p with
      | none => simp [ancestorChain]
      | some pid =>
          rw [ancestorChain]
          cases hf : S.find? (fun x => x.span_id == pid) with
          | none => simp
          | some r1 =>
              refine List.nodup_cons.mpr ⟨?_, ih⟩
              intro hmem
              cases hp : r1.parent_id with
              | none => rw [hp] at hmem; cases n <;> simp [ancestorChain] at hmem
              | some p2 =>
                  rw [hp] at hmem
                  have h1 := chain_m_le hr hmem
                  have h2 := hr r1 (List.mem_of_find?_eq_some hf) p2 hp
                  omega



theorem chain_length_le {S : List SpanRow} : ∀ {f : Nat} {p : Option String},
    (ancestorChain S p f).length ≤ f := by
  intro f
  induction f with
  | zero => intro p; cases p <;> simp [ancestorChain]
  | succ n ih =>
      intro p
      cases p with
      | none => simp [ancestorChain]
      | some pid =>
          rw [ancestorChain]
          cases hf : S.find? (fun x => x.span_id == pid) with
          | none => simp
          | some r1 =>
              simpa using Nat.succ_le_succ ih

theorem chain_grows {S : List SpanRow} : ∀ {f : Nat} {p : Option String},
    (ancestorChain S p f).IsPrefix (ancestorChain S p (f + 1)) := by
  intro f
  induction f with
  | zero => intro p; cases p <;> simp [ancestorChain]
  | succ n ih =>
      intro p
      cases p with
      | none => simp [ancestorChain]
      | some pid =>
          rw [ancestorChain, ancestorChain]
          cases hf : S.find? (fun x => x.span_id == pid) with
          | none => simp
          | some r1 => exact List.cons_prefix_cons.mpr ⟨rfl, ih⟩

theorem chain_stable_of_short {S : List SpanRow} : ∀ {f : Nat} {p : Option String},
    (ancestorChain S p f).length < f → ancestorChain S p (f + 1) = ancestorChain S p f := by
  intro f
  induction f with
  | zero => intro p h; simp at h
  | succ n ih =>
      intro p h
      cases p with
      | none => simp [ancestorChain]
      | some pid =>
          rw [ancestorChain] at h ⊢
          rw [ancestorChain]
          cases hf : S.find? (fun x => x.span_id == pid) with
          | none => rfl
          | some r1 =>
              rw [hf] at h
              dsimp only
              simp only [List.length_cons] at h
              rw [@ih r1.parent_id (by omega)]

theorem nodup_rows_of_nodup_ids {S : List SpanRow} (h : (S.map (fun r => r.id)).Nodup) :
    S.Nodup :=
  List.Nodup.of_map (fun r => r.id) h

theorem chain_succ_eq {S : List SpanRow} {m : String → Nat}
    (hr : Ranked S m) : ∀ {f : Nat} {p : Option String}, S.length ≤ f →
    ancestorChain S p (f + 1) = ancestorChain S p f := by
  intro f p hf
  by_cases hlen : (ancestorChain S p f).length < f
  · exact chain_stable_of_short hlen
  · have h1 : (ancestorChain S p f).length = f := le_antisymm chain_length_le (by omega)
    have h2 : (ancestorChain S p f).length ≤ S.length := by
      refine List.Subperm.length_le (List.subperm_of_subset (chain_nodup hr) ?_)
      intro x hx
      exact chain_mem hx
    have h4 : (ancestorChain S p (f + 1)).length ≤ S.length := by
      refine List.Subperm.length_le (List.subperm_of_subset (chain_nodup hr) ?_)
      intro x hx
      exact chain_mem hx
    rcases chain_grows (S := S) (f := f) (p := p) with ⟨t, ht⟩
    have h6 : (ancestorChain S p (f + 1)).length
        = (ancestorChain S p f).length + t.length := by
      rw [← ht, List.length_append]
    cases t with
    | nil => rw [← ht, List.append_nil]
    | cons a l => simp only [List.length_cons] at h6; omega

theorem chain_eq_of_ge {S : List SpanRow} {m : String → Nat}
    (hr : Ranked S m) : ∀ {g : Nat}, S.length ≤ g →
    ∀ {p : Option String}, ancestorChain S p g = ancestorChain S p S.length := by
  intro g
  induction g with
  | zero =>
      intro hg p
      have : S.length = 0 := by omega
      rw [this]
  | succ n ih =>
      intro hg p
      by_cases h : S.length ≤ n
      · rw [chain_succ_eq hr h, ih h]
      · have : S.length = n + 1 := by omega
        rw [this]



theorem chain_balance {S : List SpanRow} {m : String → Nat}
    (hr : Ranked S m) (hsid : (S.map (fun r => r.span_id)).Nodup) :
    ∀ {f : Nat} {p : String}, m p < f → ∀ {r : SpanRow}, r ∈ S →
    (ancestorChain S (some p) f).count r =
      (if p = r.span_id then 1 else 0)
      + (ancestorChain S (some p) f).countP (fun c => c.parent_id == some r.span_id) := by
  intro f
  induction f with
  | zero => intro p hp; exact absurd hp (Nat.not_lt_zero _)
  | succ n ih =>
      intro p hp r hrS
      rw [ancestorChain]
      cases hf : S.find? (fun x => x.span_id == p) with
      | none =>
          have hne : p ≠ r.span_id := by
            intro he
            have h2 := List.find?_eq_none.mp hf r hrS
            simp [he] at h2
          simp [hne]
      | some r1 =>
          dsimp only
          have hr1S : r1 ∈ S := List.mem_of_find?_eq_some hf
          have hr1p : r1.span_id = p := find?_sid_eq hf
          have hind : (if (r1 == r) = true then (1 : Nat) else 0)
              = (if p = r.span_id then 1 else 0) := by
            by_cases hpr : p = r.span_id
            · have h2 : S.find? (fun x => x.span_id == r.span_id) = some r :=
                find?_sid_self hsid hrS
              rw [hpr] at hf
              rw [hf] at h2
              have h3 : r1 = r := by injection h2
              simp [h3, hpr]
            · have h4 : r1 ≠ r := by
                intro he
                exact hpr (by rw [← hr1p, he])
              simp [h4, hpr]
          rw [List.count_cons, List.countP_cons]
          cases hp2 : r1.parent_id with
          | none =>
              have htail : ancestorChain S none n = [] := by cases n <;> rfl
              rw [htail]
              simp only [List.count_nil, List.countP_nil]
              have hch : ((none : Option String) == some r.span_id) = false := rfl
              rw [hch, hind]
              simp
          | some p2 =>
              have hmp2 : m p2 < n := by
                have h5 := hr r1 hr1S p2 hp2
                have h6 : m r1.span_id = m p := congrArg m hr1p
                omega
              have htail := @ih p2 hmp2 r hrS
              rw [htail, hind]
              by_cases h : p2 = r.span_id
              · simp [h]; omega
              · have hch : ((some p2 == some r.span_id) : Bool) = false := by
                  simp [h]
                rw [hch]
                simp [h]
                omega



theorem chain_none {S : List SpanRow} : ∀ {f : Nat}, ancestorChain S none f = [] := by
  intro f; cases f <;> rfl

theorem chain_append_of_lt {old : List SpanRow} {X : SpanRow} {m : String → Nat}
    (hr : Ranked (old ++ [X]) m) :
    ∀ {f : Nat} {p : String}, m p < m X.span_id →
    ancestorChain (old ++ [X]) (some p) f = ancestorChain old (some p) f := by
  intro f
  induction f with
  | zero => intro p hp; rfl
  | succ n ih =>
      intro p hp
      rw [ancestorChain, ancestorChain]
      have hx : ((fun x => x.span_id == p) X) = false := by
        have : X.span_id ≠ p := by
          intro he
          rw [he] at hp
          omega
        simpa using this
      have hfind : (old ++ [X]).find? (fun x => x.span_id == p) = old.find? (fun x => x.span_id == p) := by
        rw [List.find?_append]
        cases hf : old.find? (fun x => x.span_id == p) with
        | some r1 => rfl
        | none =>
            simp [List.find?, hx]
      rw [hfind]
      cases hf : old.find? (fun x => x.span_id == p) with
      | none => rfl
      | some r1 =>
          dsimp only
          have hr1S : r1 ∈ old ++ [X] := List.mem_append_left _ (List.mem_of_find?_eq_some hf)
          have hr1p : r1.span_id = p := find?_sid_eq hf
          cases hp2 : r1.parent_id with
          | none => rw [chain_none, chain_none]
          | some p2 =>
              have hm2 : m p2 < m X.span_id := by
                have h5 := hr r1 hr1S p2 hp2
                have h6 : m r1.span_id = m p := congrArg m hr1p
                omega
              rw [ih hm2]

theorem chain_mem_to_reaches {S : List SpanRow} :
    ∀ {f : Nat} {p : Option String} {r : SpanRow},
    r ∈ ancestorChain S p f → ReachesUp S p r := by
  intro f
  induction f with
  | zero => intro p r h; cases p <;> simp [ancestorChain] at h
  | succ n ih =>
      intro p r h
      cases p with
      | none => simp [ancestorChain] at h
      | some pid =>
          rw [ancestorChain] at h
          cases hf : S.find? (fun x => x.span_id == pid) with
          | none => rw [hf] at h; simp at h
          | some r1 =>
              rw [hf] at h
              have hr1S : r1 ∈ S := List.mem_of_find?_eq_some hf
              have hr1p : r1.span_id = pid := find?_sid_eq hf
              rcases List.mem_cons.mp h with h1 | h2
              · subst h1
                exact hr1p ▸ ReachesUp.here r hr1S
              · exact hr1p ▸ ReachesUp.up r1 r hr1S (ih h2)

theorem chain_mem_mono {S : List SpanRow} {r : SpanRow} :
    ∀ {f g : Nat} {p : Option String}, f ≤ g →
    r ∈ ancestorChain S p f → r ∈ ancestorChain S p g := by
  intro f g
  intro p hfg
  induction g with
  | zero =>
      have : f = 0 := by omega
      subst this
      exact fun h => h
  | succ n ih =>
      intro h
      by_cases hf : f = n + 1
      · subst hf; exact h
      · have h2 : f ≤ n := by omega
        have h3 := ih h2 h
        exact (chain_grows).subset h3

theorem reaches_to_chain {S : List SpanRow}
    (hsid : (S.map (fun r => r.span_id)).Nodup) {p : Option String} {r : SpanRow}
    (h : ReachesUp S p r) : ∃ f, r ∈ ancestorChain S p f := by
  induction h with
  | here r hr =>
      refine ⟨1, ?_⟩
      rw [ancestorChain, find?_sid_self hsid hr]
      simp
  | up r1 r hr1 _ ih =>
      rcases ih with ⟨f, hf⟩
      refine ⟨f + 1, ?_⟩
      rw [ancestorChain, find?_sid_self hsid hr1]
      exact List.mem_cons_of_mem _ hf

theorem reaches_mem_chain_len {S : List SpanRow} {m : String → Nat}
    (hr : Ranked S m) (hsid : (S.map (fun r => r.span_id)).Nodup)
    {p : Option String} {r : SpanRow} (h : ReachesUp S p r) :
    r ∈ ancestorChain S p S.length := by
  rcases reaches_to_chain hsid h with ⟨f, hf⟩
  have h2 : r ∈ ancestorChain S p (max f S.length) := chain_mem_mono (Nat.le_max_left _ _) hf
  rw [chain_eq_of_ge hr (Nat.le_max_right _ _)] at h2
  exact h2



theorem reaches_none {S : List SpanRow} {r : SpanRow} (h : ReachesUp S none r) : False := by
  cases h

theorem propagate_bump_iff (old : List SpanRow) (X : SpanRow) (m : String → Nat)
    (hsid : (old.map (fun r => r.span_id)).Nodup)
    (hid : (old.map (fun r => r.id)).Nodup)
    (hfr : ∀ r ∈ old, r.span_id ≠ X.span_id)
    (hrank : Ranked old m)
    (hrX : ∀ pid, X.parent_id = some pid → m pid < m X.span_id) :
    ∀ r ∈ old,
      (r.id ∈ (ancestorChain (old ++ [X]) X.parent_id (old ++ [X]).length).map (fun c => c.id))
        ↔ ReachesUp old X.parent_id r := by
  intro r hrold
  cases hpx : X.parent_id with
  | none =>
      rw [chain_none]
      simp only [List.map_nil, List.not_mem_nil, false_iff]
      intro h
      exact reaches_none h
  | some p =>
      have hrankS : Ranked (old ++ [X]) m := by
        intro y hy pid hpid
        rcases List.mem_append.mp hy with h1 | h2
        · exact hrank y h1 pid hpid
        · have : y = X := List.mem_singleton.mp h2
          subst this
          exact hrX pid hpid
      have hmp : m p < m X.span_id := hrX p hpx
      have hchain : ancestorChain (old ++ [X]) (some p) (old ++ [X]).length
          = ancestorChain old (some p) (old ++ [X]).length :=
        chain_append_of_lt hrankS hmp
      rw [hchain]
      constructor
      · intro hmem
        rcases List.mem_map.mp hmem with ⟨c, hc, hcid⟩
        have hcold : c ∈ old := chain_mem hc
        have hceq : c = r := List.inj_on_of_nodup_map hid hcold hrold hcid
        subst hceq
        exact chain_mem_to_reaches hc
      · intro hre
        have h1 : r ∈ ancestorChain old (some p) old.length :=
          reaches_mem_chain_len hrank hsid hre
        have h2 : old.length ≤ (old ++ [X]).length := by
          rw [List.length_append]; omega
        exact List.mem_map_of_mem _ (chain_mem_mono h2 h1)

theorem propagate_spec (old : List SpanRow) (X : SpanRow) (m : String → Nat)
    (d : Int × Int × Int)
    (hsid : (old.map (fun r => r.span_id)).Nodup)
    (hid : (old.map (fun r => r.id)).Nodup)
    (hfr : ∀ r ∈ old, r.span_id ≠ X.span_id)
    (hrank : Ranked old m)
    (hrX : ∀ pid, X.parent_id = some pid → m pid < m X.span_id) :
    ∀ r ∈ old,
      (ReachesUp old X.parent_id r →
        bumpRow d r ∈ propagateAncestors (old ++ [X]) X.parent_id d)
      ∧ (¬ ReachesUp old X.parent_id r →
        r ∈ propagateAncestors (old ++ [X]) X.parent_id d) := by
  intro r hrold
  have hiff := propagate_bump_iff old X m hsid hid hfr hrank hrX r hrold
  have hrS : r ∈ old ++ [X] := List.mem_append_left _ hrold
  constructor
  · intro hre
    have hmem : r.id ∈ (ancestorChain (old ++ [X]) X.parent_id (old ++ [X]).length).map (fun c => c.id) :=
      hiff.mpr hre
    have hmm := List.mem_map_of_mem
      (fun y => if y.id ∈ (ancestorChain (old ++ [X]) X.parent_id (old ++ [X]).length).map (fun c => c.id)
                then bumpRow d y else y) hrS
    dsimp only at hmm
    rw [if_pos hmem] at hmm
    dsimp only [propagateAncestors]
    exact hmm
  · intro hre
    have hmem : r.id ∉ (ancestorChain (old ++ [X]) X.parent_id (old ++ [X]).length).map (fun c => c.id) :=
      fun hm => hre (hiff.mp hm)
    have hmm := List.mem_map_of_mem
      (fun y => if y.id ∈ (ancestorChain (old ++ [X]) X.parent_id (old ++ [X]).length).map (fun c => c.id)
                then bumpRow d y else y) hrS
    dsimp only at hmm
    rw [if_neg hmem] at hmm
    dsimp only [propagateAncestors]
    exact hmm



/-- C4: after a successful (non-duplicate) insert, every stored transitive
ancestor of the new span found by walking parent_id upward over existing
rows only (ReachesUp) has the just-computed cumulative deltas added to its
counters (increment-in-place), while every stored span that is not such an
ancestor is unchanged; an ancestor not yet stored simply ends the walk.  The
rank m rules out parent cycles, which the recursive SQL query would not
terminate on either. -/
theorem C4_ancestor_propagation (s : Store) (m : String → Nat) (sp : Span) (pn : String)
    (hsid : (s.spans.map (fun r => r.span_id)).Nodup)
    (hid : (s.spans.map (fun r => r.id)).Nodup)
    (hrank : Ranked s.spans m)
    (hspan : ∀ pid, sp.parent_id = some pid → m pid < m sp.context.span_id)
    (hfresh : ∀ r ∈ s.spans, r.span_id ≠ sp.context.span_id) :
    (insert_span s sp pn).1.isSome = true
    ∧ (insert_span s sp pn).2.spans.length = s.spans.length + 1
    ∧ ∀ r ∈ s.spans,
        (ReachesUp s.spans sp.parent_id r →
          bumpRow (newSpanCum s.spans sp) r ∈ (insert_span s sp pn).2.spans)
        ∧ (¬ ReachesUp s.spans sp.parent_id r →
          r ∈ (insert_span s sp pn).2.spans) := by
  have hany : s.spans.any (fun r => r.span_id == sp.context.span_id) = false := by
    rw [List.any_eq_false]
    intro x hx
    simpa using hfresh x hx
  rw [insert_span_fresh s sp pn hany]
  dsimp only
  rw [correlateSession_spans]
  dsimp only
  refine ⟨rfl, ?_, ?_⟩
  · dsimp only [propagateAncestors]
    rw [List.length_map, List.length_append]
    rfl
  · intro r hrold
    have hspec := propagate_spec s.spans
      (mkSpanRow sp s.nextSpanId (upsertTrace (resolveProject s pn).2 sp (resolveProject s pn).1).1.id (newSpanCum s.spans sp))
      m (newSpanCum s.spans sp) hsid hid hfresh hrank hspan r hrold
    exact hspec



theorem sum_map_add_ite {α : Type} (l : List α) (f : α → Int) (q : α → Prop) [DecidablePred q] (dv : Int) :
    (l.map (fun c => f c + (if q c then dv else 0))).sum
      = (l.map f).sum + dv * (l.countP (fun c => decide (q c))) := by
  induction l with
  | nil => simp
  | cons a l ih =>
      by_cases h : q a
      · simp only [List.map_cons, List.sum_cons, ih, List.countP_cons, h,
          if_pos, decide_eq_true_eq]
        push_cast
        ring
      · simp only [List.map_cons, List.sum_cons, ih, List.countP_cons, h,
          if_neg, decide_eq_true_eq]
        push_cast
        simp [h]
        ring

theorem countP_mem_eq_filter_len {α : Type} [DecidableEq α] (l1 l2 : List α) (q : α → Bool)
    (h1 : l1.Nodup) (h2 : l2.Nodup) (hsub : ∀ x ∈ l2, x ∈ l1) :
    (l1.filter q).countP (fun x => decide (x ∈ l2)) = (l2.filter q).length := by
  have hl : (l1.filter q).countP (fun x => decide (x ∈ l2))
      = ((l1.filter q).filter (fun x => decide (x ∈ l2))).length := by
    rw [List.countP_eq_length_filter]
  rw [hl]
  have hperm : ((l1.filter q).filter (fun x => decide (x ∈ l2))).Perm (l2.filter q) := by
    refine (List.perm_ext_iff_of_nodup ?_ ?_).mpr ?_
    · exact (h1.filter _).filter _
    · exact h2.filter _
    · intro a
      simp only [List.mem_filter, decide_eq_true_eq]
      constructor
      · rintro ⟨⟨ha1, ha2⟩, ha3⟩
        exact ⟨ha3, ha2⟩
      · rintro ⟨ha1, ha2⟩
        exact ⟨⟨hsub a ha1, ha2⟩, ha1⟩
  exact hperm.length_eq

theorem ranked_append {old : List SpanRow} {X : SpanRow} {m : String → Nat}
    (hrank : Ranked old m)
    (hrX : ∀ pid, X.parent_id = some pid → m pid < m X.span_id) :
    Ranked (old ++ [X]) m := by
  intro y hy pid hpid
  rcases List.mem_append.mp hy with h1 | h2
  · exact hrank y h1 pid hpid
  · have he : y = X := List.mem_singleton.mp h2
    subst he
    exact hrX pid hpid

theorem nodup_map_append {α : Type} (f : SpanRow → α) (old : List SpanRow) (X : SpanRow)
    (h1 : (old.map f).Nodup) (h2 : ∀ r ∈ old, f r ≠ f X) :
    ((old ++ [X]).map f).Nodup := by
  rw [List.map_append]
  refine List.nodup_append.mpr ⟨h1, by simp, ?_⟩
  intro a ha hb
  simp only [List.map_cons, List.map_nil, List.mem_cons, List.not_mem_nil, or_false] at hb
  rcases List.mem_map.mp ha with ⟨r, hr, hfr⟩
  exact h2 r hr (by rw [hfr, hb])



theorem cum_component
    (old : List SpanRow) (X : SpanRow) (C : List SpanRow) (A : List Nat)
    (dX : Int × Int × Int) (g : SpanRow → SpanRow)
    (getCum getOwn : SpanRow → Int) (dv : Int)
    (hA : A = C.map (fun c => c.id))
    (hg : ∀ z, g z = if z.id ∈ A then bumpRow dX z else z)
    (hCold : ∀ c ∈ C, c ∈ old)
    (hCnd : C.Nodup)
    (holdnd : old.Nodup)
    (hidinj : ∀ x ∈ old ++ [X], ∀ y ∈ old ++ [X], x.id = y.id → x = y)
    (hXold : X ∉ old)
    (hbal : ∀ r ∈ old ++ [X],
       C.count r = (match X.parent_id with
         | some p => if p = r.span_id then 1 else 0
         | none => 0) + C.countP (fun c => c.parent_id == some r.span_id))
    (hbump : ∀ z, getCum (bumpRow dX z) = getCum z + dv)
    (hbumpOwn : ∀ z, getOwn (bumpRow dX z) = getOwn z)
    (hdv : getCum X = dv)
    (hXeq : getCum X = getOwn X
       + ((old.filter (fun c => c.parent_id == some X.span_id)).map getCum).sum)
    (holdeq : ∀ r ∈ old, getCum r = getOwn r
       + ((old.filter (fun c => c.parent_id == some r.span_id)).map getCum).sum)
    (hXnc : (X.parent_id == some X.span_id) = false) :
    ∀ y ∈ old ++ [X],
      getCum (g y) = getOwn (g y)
        + ((((old ++ [X]).map g).filter (fun c => c.parent_id == some (g y).span_id)).map getCum).sum := by
  have hgid : ∀ z, (g z).id = z.id := by
    intro z; rw [hg]; split <;> rfl
  have hgpar : ∀ z, (g z).parent_id = z.parent_id := by
    intro z; rw [hg]; split <;> rfl
  have hgsid : ∀ z, (g z).span_id = z.span_id := by
    intro z; rw [hg]; split <;> rfl
  have hgown : ∀ z, getOwn (g z) = getOwn z := by
    intro z; rw [hg]; split
    · exact hbumpOwn z
    · rfl
  have hiff : ∀ z ∈ old ++ [X], (z.id ∈ A ↔ z ∈ C) := by
    intro z hz
    constructor
    · intro hm
      rw [hA] at hm
      rcases List.mem_map.mp hm with ⟨c, hc, hcid⟩
      have hcS : c ∈ old ++ [X] := List.mem_append_left _ (hCold c hc)
      have : c = z := hidinj c hcS z hz hcid
      exact this ▸ hc
    · intro hm
      rw [hA]
      exact List.mem_map_of_mem _ hm
  have hXC : X ∉ C := fun h => hXold (hCold X h)
  have hXS : X ∈ old ++ [X] := List.mem_append_right _ (List.mem_singleton.mpr rfl)
  have hgX : g X = X := by
    rw [hg, if_neg]
    intro hm
    exact hXC ((hiff X hXS).mp hm)
  -- the filtered children of a given span_id in the mapped table
  have hfilter : ∀ sid : String,
      ((old ++ [X]).map g).filter (fun c => c.parent_id == some sid)
        = ((old.filter (fun c => c.parent_id == some sid)).map g)
          ++ (([X].filter (fun c => c.parent_id == some sid)).map g) := by
    intro sid
    rw [List.filter_map]
    have hpg : ((fun c => c.parent_id == some sid) ∘ g) = (fun c => c.parent_id == some sid) := by
      funext z
      simp [Function.comp, hgpar]
    rw [hpg, List.filter_append, List.map_append]
  -- no child of X is in the chain
  have hnochildX : ∀ c ∈ old, (c.parent_id == some X.span_id) = true → c ∉ C := by
    intro c hc hcp hcC
    have hb := hbal X hXS
    have hcount : C.count X = 0 := List.count_eq_zero.mpr hXC
    rw [hcount] at hb
    have hcp2 : C.countP (fun c => c.parent_id == some X.span_id) = 0 := by omega
    have := List.countP_eq_zero.mp hcp2 c hcC
    exact this hcp
  intro y hy
  rcases List.mem_append.mp hy with hyold | hyX
  case inr =>
    -- y = X: its own equation carries over unchanged
    have hyX2 : y = X := List.mem_singleton.mp hyX
    subst hyX2
    rw [hgX, hfilter]
    have hXempty : [y].filter (fun c => c.parent_id == some y.span_id) = [] := by
      simp [List.filter, hXnc]
    rw [hXempty]
    have hchildeq : (old.filter (fun c => c.parent_id == some y.span_id)).map g
        = old.filter (fun c => c.parent_id == some y.span_id) := by
      have : ∀ c ∈ old.filter (fun c => c.parent_id == some y.span_id), g c = c := by
        intro c hc
        have hc1 := List.mem_filter.mp hc
        have hnc := hnochildX c hc1.1 hc1.2
        rw [hg, if_neg]
        intro hm
        exact hnc ((hiff c (List.mem_append_left _ hc1.1)).mp hm)
      calc (old.filter (fun c => c.parent_id == some y.span_id)).map g
          = (old.filter (fun c => c.parent_id == some y.span_id)).map id :=
            List.map_congr_left this
        _ = old.filter (fun c => c.parent_id == some y.span_id) := List.map_id _
    rw [List.map_nil, List.append_nil, hchildeq]
    exact hXeq
  case inl =>
    -- y is an old row
    have hyS : y ∈ old ++ [X] := List.mem_append_left _ hyold
    have hbi : C.count y = if y ∈ C then 1 else 0 := by
      by_cases hyC : y ∈ C
      · rw [List.count_eq_one_of_mem hCnd hyC, if_pos hyC]
      · rw [List.count_eq_zero.mpr hyC, if_neg hyC]
    have hL : getCum (g y) = getCum y + (if y ∈ C then (1 : Int) else 0) * dv := by
      by_cases hyC : y ∈ C
      · rw [hg, if_pos ((hiff y hyS).mpr hyC), hbump, if_pos hyC]
        ring
      · rw [hg, if_neg (fun hm => hyC ((hiff y hyS).mp hm)), if_neg hyC]
        ring
    rw [hL, hgown, hgsid, hfilter]
    -- sum over the mapped old children
    have hmapeq : (old.filter (fun c => c.parent_id == some y.span_id)).map (getCum ∘ g)
        = (old.filter (fun c => c.parent_id == some y.span_id)).map
            (fun c => getCum c + (if c.id ∈ A then dv else 0)) := by
      refine List.map_congr_left ?_
      intro c hc
      simp only [Function.comp]
      by_cases hcA : c.id ∈ A
      · rw [hg, if_pos hcA, hbump, if_pos hcA]
      · rw [hg, if_neg hcA, if_neg hcA]
        ring
    have hsum1 : (((old.filter (fun c => c.parent_id == some y.span_id)).map g).map getCum).sum
        = ((old.filter (fun c => c.parent_id == some y.span_id)).map getCum).sum
          + dv * ((old.filter (fun c => c.parent_id == some y.span_id)).countP
              (fun c => decide (c.id ∈ A))) := by
      rw [List.map_map, hmapeq,
          sum_map_add_ite (old.filter (fun c => c.parent_id == some y.span_id)) getCum
            (fun c => c.id ∈ A) dv]
    -- the singleton [X] contributes exactly when X is a direct child of y
    have hsum2 : ((([X].filter (fun c => c.parent_id == some y.span_id)).map g).map getCum).sum
        = if (X.parent_id == some y.span_id) = true then dv else 0 := by
      by_cases hcx : (X.parent_id == some y.span_id) = true
      · have : [X].filter (fun c => c.parent_id == some y.span_id) = [X] := by
          simp [List.filter, hcx]
        rw [this]
        simp [hgX, hdv, hcx]
      · have : [X].filter (fun c => c.parent_id == some y.span_id) = [] := by
          simp only [List.filter]
          rw [Bool.eq_false_iff.mpr hcx]
        rw [this]
        simp [hcx]
    -- the chain-membership count over the children equals the countP over the chain
    have hn1 : (old.filter (fun c => c.parent_id == some y.span_id)).countP
          (fun c => decide (c.id ∈ A))
        = C.countP (fun c => c.parent_id == some y.span_id) := by
      have hcongr : (old.filter (fun c => c.parent_id == some y.span_id)).countP
            (fun c => decide (c.id ∈ A))
          = (old.filter (fun c => c.parent_id == some y.span_id)).countP
            (fun c => decide (c ∈ C)) := by
        refine List.countP_congr ?_
        intro c hc
        have hcold : c ∈ old := (List.mem_filter.mp hc).1
        have := hiff c (List.mem_append_left _ hcold)
        constructor
        · intro h1
          exact decide_eq_true (this.mp (of_decide_eq_true h1))
        · intro h1
          exact decide_eq_true (this.mpr (of_decide_eq_true h1))
      rw [hcongr,
          countP_mem_eq_filter_len old C (fun c => c.parent_id == some y.span_id) holdnd hCnd hCold,
          List.countP_eq_length_filter]
    -- the balance identity at y
    have hbaly := hbal y hyS
    rw [hbi] at hbaly
    -- assemble
    rw [List.map_append, List.sum_append, hsum1, hsum2, hn1]
    have hrw := holdeq y hyold
    rw [hrw]
    -- remaining arithmetic: the membership indicator splits into head and child counts
    cases hpx : X.parent_id with
    | none =>
        rw [hpx] at hbaly
        have hC0 : (if y ∈ C then (1 : Nat) else 0)
            = C.countP (fun c => c.parent_id == some y.span_id) := by
          simpa using hbaly
        have hcx : ((none : Option String) == some y.span_id) = false := rfl
        rw [hcx]
        simp only [Bool.false_eq_true, if_false]
        by_cases hyC : y ∈ C
        · rw [if_pos hyC] at hC0 ⊢
          rw [← hC0]
          push_cast
          ring
        · rw [if_neg hyC] at hC0 ⊢
          rw [← hC0]
          push_cast
          ring
    | some p =>
        rw [hpx] at hbaly
        by_cases hps : p = y.span_id
        · have hC0 : (if y ∈ C then (1 : Nat) else 0)
              = 1 + C.countP (fun c => c.parent_id == some y.span_id) := by
            simpa [hps] using hbaly
          have hcx : ((some p == some y.span_id) : Bool) = true := by simp [hps]
          rw [hcx]
          simp only [if_pos]
          by_cases hyC : y ∈ C
          · rw [if_pos hyC] at hC0 ⊢
            have hz : C.countP (fun c => c.parent_id == some y.span_id) = 0 := by omega
            rw [hz]
            push_cast
            ring
          · rw [if_neg hyC] at hC0
            exact absurd hC0 (by omega)
        · have hC0 : (if y ∈ C then (1 : Nat) else 0)
              = C.countP (fun c => c.parent_id == some y.span_id) := by
            simpa [hps] using hbaly
          have hcx : ((some p == some y.span_id) : Bool) = false := by simp [hps]
          rw [hcx]
          simp only [Bool.false_eq_true, if_false]
          by_cases hyC : y ∈ C
          · rw [if_pos hyC] at hC0 ⊢
            rw [← hC0]
            push_cast
            ring
          · rw [if_neg hyC] at hC0 ⊢
            rw [← hC0]
            push_cast
            ring



theorem propagate_cum (old : List SpanRow) (X : SpanRow) (m : String → Nat)
    (hsid : (old.map (fun r => r.span_id)).Nodup)
    (hid : (old.map (fun r => r.id)).Nodup)
    (hfr : ∀ r ∈ old, r.span_id ≠ X.span_id)
    (hidX : ∀ r ∈ old, r.id ≠ X.id)
    (hrank : Ranked old m)
    (hrX : ∀ pid, X.parent_id = some pid → m pid < m X.span_id)
    (hXcum : CumEqRow old X)
    (hold : ∀ r ∈ old, CumEqRow old r) :
    ∀ r' ∈ propagateAncestors (old ++ [X]) X.parent_id
        (X.cumulative_error_count, X.cumulative_llm_token_count_prompt,
         X.cumulative_llm_token_count_completion),
      CumEqRow (propagateAncestors (old ++ [X]) X.parent_id
        (X.cumulative_error_count, X.cumulative_llm_token_count_prompt,
         X.cumulative_llm_token_count_completion)) r' := by
  have hranked : Ranked (old ++ [X]) m := ranked_append hrank hrX
  have hsidS : ((old ++ [X]).map (fun r => r.span_id)).Nodup :=
    nodup_map_append _ old X hsid hfr
  have hidS : ((old ++ [X]).map (fun r => r.id)).Nodup :=
    nodup_map_append _ old X hid hidX
  have holdnd : old.Nodup := nodup_rows_of_nodup_ids hid
  have hidinj : ∀ x ∈ old ++ [X], ∀ y ∈ old ++ [X], x.id = y.id → x = y := by
    intro x hx y hy hxy
    exact List.inj_on_of_nodup_map hidS hx hy hxy
  have hXold : X ∉ old := fun h => hfr X h rfl
  have hCold : ∀ c ∈ ancestorChain (old ++ [X]) X.parent_id (old ++ [X]).length, c ∈ old := by
    cases hpx : X.parent_id with
    | none => rw [chain_none]; intro c hc; simp at hc
    | some p =>
        intro c hc
        have hcS := chain_mem hc
        have hml := chain_m_le hranked hc
        have hmp : m p < m X.span_id := hrX p hpx
        rcases List.mem_append.mp hcS with h1 | h2
        · exact h1
        · have : c = X := List.mem_singleton.mp h2
          subst this
          omega
  have hCnd : (ancestorChain (old ++ [X]) X.parent_id (old ++ [X]).length).Nodup :=
    chain_nodup hranked
  have hbal : ∀ r ∈ old ++ [X],
      (ancestorChain (old ++ [X]) X.parent_id (old ++ [X]).length).count r
        = (match X.parent_id with
            | some p => if p = r.span_id then 1 else 0
            | none => 0)
          + (ancestorChain (old ++ [X]) X.parent_id (old ++ [X]).length).countP
              (fun c => c.parent_id == some r.span_id) := by
    cases hpx : X.parent_id with
    | none =>
        rw [chain_none]
        intro r hr
        simp
    | some p =>
        intro r hr
        have hmp : m p < max (old ++ [X]).length (m p + 1) :=
          lt_of_lt_of_le (Nat.lt_succ_self _) (Nat.le_max_right _ _)
        have hCG : ancestorChain (old ++ [X]) (some p) (max (old ++ [X]).length (m p + 1))
            = ancestorChain (old ++ [X]) (some p) (old ++ [X]).length :=
          chain_eq_of_ge hranked (Nat.le_max_left _ _)
        rw [← hCG]
        exact chain_balance hranked hsidS hmp hr
  have hXnc : (X.parent_id == some X.span_id) = false := by
    by_cases h : X.parent_id = some X.span_id
    · have := hrX X.span_id h
      omega
    · simpa using h
  have hres : propagateAncestors (old ++ [X]) X.parent_id
      (X.cumulative_error_count, X.cumulative_llm_token_count_prompt,
       X.cumulative_llm_token_count_completion)
      = (old ++ [X]).map (fun z =>
          if z.id ∈ (ancestorChain (old ++ [X]) X.parent_id (old ++ [X]).length).map (fun c => c.id)
          then bumpRow (X.cumulative_error_count, X.cumulative_llm_token_count_prompt,
                X.cumulative_llm_token_count_completion) z
          else z) := rfl
  have hcomp1 := cum_component old X
    (ancestorChain (old ++ [X]) X.parent_id (old ++ [X]).length)
    ((ancestorChain (old ++ [X]) X.parent_id (old ++ [X]).length).map (fun c => c.id))
    (X.cumulative_error_count, X.cumulative_llm_token_count_prompt,
     X.cumulative_llm_token_count_completion)
    (fun z =>
          if z.id ∈ (ancestorChain (old ++ [X]) X.parent_id (old ++ [X]).length).map (fun c => c.id)
          then bumpRow (X.cumulative_error_count, X.cumulative_llm_token_count_prompt,
                X.cumulative_llm_token_count_completion) z
          else z)
    (fun r => r.cumulative_error_count) rowOwnError X.cumulative_error_count
    rfl (fun z => rfl) hCold hCnd holdnd hidinj hXold hbal
    (fun z => rfl) (fun z => rfl) rfl hXcum.1 (fun r hr => (hold r hr).1) hXnc
  have hcomp2 := cum_component old X
    (ancestorChain (old ++ [X]) X.parent_id (old ++ [X]).length)
    ((ancestorChain (old ++ [X]) X.parent_id (old ++ [X]).length).map (fun c => c.id))
    (X.cumulative_error_count, X.cumulative_llm_token_count_prompt,
     X.cumulative_llm_token_count_completion)
    (fun z =>
          if z.id ∈ (ancestorChain (old ++ [X]) X.parent_id (old ++ [X]).length).map (fun c => c.id)
          then bumpRow (X.cumulative_error_count, X.cumulative_llm_token_count_prompt,
                X.cumulative_llm_token_count_completion) z
          else z)
    (fun r => r.cumulative_llm_token_count_prompt) rowOwnPrompt X.cumulative_llm_token_count_prompt
    rfl (fun z => rfl) hCold hCnd holdnd hidinj hXold hbal
    (fun z => rfl) (fun z => rfl) rfl hXcum.2.1 (fun r hr => (hold r hr).2.1) hXnc
  have hcomp3 := cum_component old X
    (ancestorChain (old ++ [X]) X.parent_id (old ++ [X]).length)
    ((ancestorChain (old ++ [X]) X.parent_id (old ++ [X]).length).map (fun c => c.id))
    (X.cumulative_error_count, X.cumulative_llm_token_count_prompt,
     X.cumulative_llm_token_count_completion)
    (fun z =>
          if z.id ∈ (ancestorChain (old ++ [X]) X.parent_id (old ++ [X]).length).map (fun c => c.id)
          then bumpRow (X.cumulative_error_count, X.cumulative_llm_token_count_prompt,
                X.cumulative_llm_token_count_completion) z
          else z)
    (fun r => r.cumulative_llm_token_count_completion) rowOwnCompletion
    X.cumulative_llm_token_count_completion
    rfl (fun z => rfl) hCold hCnd holdnd hidinj hXold hbal
    (fun z => rfl) (fun z => rfl) rfl hXcum.2.2 (fun r hr => (hold r hr).2.2) hXnc
  intro r' hr'
  rw [hres] at hr'
  rcases List.mem_map.mp hr' with ⟨y, hy, hgy⟩
  subst hgy
  exact ⟨hcomp1 y hy, hcomp2 y hy, hcomp3 y hy⟩



theorem correlateSession_nextSpanId (s : Store) (sp : Span) (pid : Nat) (tr : TraceRow) (srid : Nat) :
    (correlateSession s sp pid tr srid).nextSpanId = s.nextSpanId := by
  unfold correlateSession
  cases sp.attributes.session_id with
  | none => rfl
  | some v =>
      dsimp only
      split
      · cases s.sessions.find? (fun ps => ps.session_id == attrToSessionKey v) <;> rfl
      · rfl

theorem childSums_nonneg (old : List SpanRow) (sid : String)
    (h : ∀ r ∈ old, 0 ≤ r.cumulative_error_count
        ∧ 0 ≤ r.cumulative_llm_token_count_prompt
        ∧ 0 ≤ r.cumulative_llm_token_count_completion) :
    0 ≤ (childSums old sid).1 ∧ 0 ≤ (childSums old sid).2.1 ∧ 0 ≤ (childSums old sid).2.2 := by
  refine ⟨List.sum_nonneg ?_, List.sum_nonneg ?_, List.sum_nonneg ?_⟩ <;>
  · intro x hx
    rcases List.mem_map.mp hx with ⟨r, hr, hv⟩
    have := h r (List.mem_filter.mp hr).1
    omega

theorem newSpanCum_nonneg (old : List SpanRow) (sp : Span)
    (h : ∀ r ∈ old, 0 ≤ r.cumulative_error_count
        ∧ 0 ≤ r.cumulative_llm_token_count_prompt
        ∧ 0 ≤ r.cumulative_llm_token_count_completion)
    (hn : 0 ≤ sp.attributes.llm_token_count_prompt.getD 0
        ∧ 0 ≤ sp.attributes.llm_token_count_completion.getD 0) :
    0 ≤ (newSpanCum old sp).1 ∧ 0 ≤ (newSpanCum old sp).2.1 ∧ 0 ≤ (newSpanCum old sp).2.2 := by
  have hc := childSums_nonneg old sp.context.span_id h
  have he : 0 ≤ ownErrorCount sp := by
    unfold ownErrorCount; split <;> omega
  unfold newSpanCum
  dsimp only
  exact ⟨by omega, by omega, by omega⟩

theorem rowOwnError_mk (sp : Span) (i t : Nat) (d : Int × Int × Int) :
    rowOwnError (mkSpanRow sp i t d) = ownErrorCount sp := by
  cases h : sp.status_code <;>
    simp [rowOwnError, ownErrorCount, mkSpanRow, SpanStatusCode.value, h]



theorem good_insert (s : Store) (m : String → Nat) (sp : Span) (pn : String)
    (hg : GoodStore s m)
    (hr : ∀ pid, sp.parent_id = some pid → m pid < m sp.context.span_id)
    (hn : 0 ≤ sp.attributes.llm_token_count_prompt.getD 0
        ∧ 0 ≤ sp.attributes.llm_token_count_completion.getD 0) :
    GoodStore (insert_span s sp pn).2 m := by
  obtain ⟨hsid, hid, hbound, hrank, hnn, hcum⟩ := hg
  by_cases hdup : s.spans.any (fun r => r.span_id == sp.context.span_id) = true
  · rw [insert_span_dup s sp pn hdup]
    refine ⟨?_, ?_, ?_, ?_, ?_, ?_⟩ <;>
      rw [upsertTrace_spans, resolveProject_spans] <;>
      try rw [upsertTrace_nextSpanId, resolveProject_nextSpanId]
    · exact hsid
    · exact hid
    · exact hbound
    · exact hrank
    · exact hnn
    · exact hcum
  · have hany : s.spans.any (fun r => r.span_id == sp.context.span_id) = false := by
      simpa using hdup
    have hfr : ∀ r ∈ s.spans, r.span_id ≠ sp.context.span_id := by
      intro r hrr
      have := List.any_eq_false.mp hany r hrr
      simpa using this
    rw [insert_span_fresh s sp pn hany]
    dsimp only
    rw [GoodStore]
    rw [correlateSession_spans, correlateSession_nextSpanId]
    dsimp only
    -- abbreviations
    have hd := newSpanCum_nonneg s.spans sp hnn hn
    have hidX : ∀ r ∈ s.spans, r.id ≠ s.nextSpanId := by
      intro r hrr he
      have := hbound r hrr
      omega
    -- the propagated table is a map over the appended table
    have hgid : ∀ (A : List Nat) (d : Int × Int × Int) (z : SpanRow),
        ((if z.id ∈ A then bumpRow d z else z).id = z.id
         ∧ (if z.id ∈ A then bumpRow d z else z).span_id = z.span_id
         ∧ (if z.id ∈ A then bumpRow d z else z).parent_id = z.parent_id) := by
      intro A d z
      refine ⟨?_, ?_, ?_⟩ <;> split <;> rfl
    refine ⟨?_, ?_, ?_, ?_, ?_, ?_⟩
    · -- span_id uniqueness
      dsimp only [propagateAncestors]
      rw [List.map_map]
      have : ((fun r => r.span_id) ∘ (fun r =>
          if r.id ∈ (ancestorChain (s.spans ++ [mkSpanRow sp s.nextSpanId (upsertTrace (resolveProject s pn).2 sp (resolveProject s pn).1).1.id (newSpanCum s.spans sp)]) sp.parent_id (s.spans ++ [mkSpanRow sp s.nextSpanId (upsertTrace (resolveProject s pn).2 sp (resolveProject s pn).1).1.id (newSpanCum s.spans sp)]).length).map (fun c => c.id)
          then bumpRow (newSpanCum s.spans sp) r else r))
          = (fun r : SpanRow => r.span_id) := by
        funext z
        exact (hgid _ _ z).2.1
      rw [this]
      exact nodup_map_append _ s.spans _ hsid hfr
    · -- id uniqueness
      dsimp only [propagateAncestors]
      rw [List.map_map]
      have : ((fun r => r.id) ∘ (fun r =>
          if r.id ∈ (ancestorChain (s.spans ++ [mkSpanRow sp s.nextSpanId (upsertTrace (resolveProject s pn).2 sp (resolveProject s pn).1).1.id (newSpanCum s.spans sp)]) sp.parent_id (s.spans ++ [mkSpanRow sp s.nextSpanId (upsertTrace (resolveProject s pn).2 sp (resolveProject s pn).1).1.id (newSpanCum s.spans sp)]).length).map (fun c => c.id)
          then bumpRow (newSpanCum s.spans sp) r else r))
          = (fun r : SpanRow => r.id) := by
        funext z
        exact (hgid _ _ z).1
      rw [this]
      exact nodup_map_append _ s.spans _ hid hidX
    · -- id bound
      intro r' hr'
      dsimp only [propagateAncestors] at hr'
      rcases List.mem_map.mp hr' with ⟨y, hy, hgy⟩
      have hidy : r'.id = y.id := by rw [← hgy]; exact (hgid _ _ y).1
      rw [hidy]
      rcases List.mem_append.mp hy with h1 | h2
      · have := hbound y h1
        omega
      · have : y = mkSpanRow sp s.nextSpanId (upsertTrace (resolveProject s pn).2 sp (resolveProject s pn).1).1.id (newSpanCum s.spans sp) :=
          List.mem_singleton.mp h2
        subst this
        dsimp only [mkSpanRow]
        omega
    · -- ranked
      intro r' hr' pid hpid
      dsimp only [propagateAncestors] at hr'
      rcases List.mem_map.mp hr' with ⟨y, hy, hgy⟩
      have hsidy : r'.span_id = y.span_id := by rw [← hgy]; exact (hgid _ _ y).2.1
      have hpary : r'.parent_id = y.parent_id := by rw [← hgy]; exact (hgid _ _ y).2.2
      rw [hsidy]
      rw [hpary] at hpid
      rcases List.mem_append.mp hy with h1 | h2
      · exact hrank y h1 pid hpid
      · have : y = mkSpanRow sp s.nextSpanId (upsertTrace (resolveProject s pn).2 sp (resolveProject s pn).1).1.id (newSpanCum s.spans sp) :=
          List.mem_singleton.mp h2
        subst this
        exact hr pid hpid
    · -- nonnegative counters
      intro r' hr'
      dsimp only [propagateAncestors] at hr'
      rcases List.mem_map.mp hr' with ⟨y, hy, hgy⟩
      have hy0 : 0 ≤ y.cumulative_error_count ∧ 0 ≤ y.cumulative_llm_token_count_prompt
          ∧ 0 ≤ y.cumulative_llm_token_count_completion := by
        rcases List.mem_append.mp hy with h1 | h2
        · exact hnn y h1
        · have : y = mkSpanRow sp s.nextSpanId (upsertTrace (resolveProject s pn).2 sp (resolveProject s pn).1).1.id (newSpanCum s.spans sp) :=
            List.mem_singleton.mp h2
          subst this
          exact hd
      rw [← hgy]
      split
      · dsimp only [bumpRow]
        refine ⟨by omega, by omega, by omega⟩
      · exact hy0
    · -- cumulative invariant
      intro r' hr'
      have hprop := propagate_cum s.spans
        (mkSpanRow sp s.nextSpanId (upsertTrace (resolveProject s pn).2 sp (resolveProject s pn).1).1.id (newSpanCum s.spans sp))
        m hsid hid hfr hidX hrank hr
        ⟨by rw [rowOwnError_mk]; rfl, rfl, rfl⟩ hcum r' hr'
      exact hprop



theorem good_empty (m : String → Nat) : GoodStore Store.empty m := by
  refine ⟨by simp [Store.empty], by simp [Store.empty], ?_, ?_, ?_, ?_⟩ <;>
    intro r hrr <;> simp [Store.empty] at hrr

theorem good_fold (ops : List (Span × String)) (m : String → Nat) :
    ∀ (s : Store), GoodStore s m →
    (∀ op ∈ ops, ∀ pid, op.1.parent_id = some pid → m pid < m op.1.context.span_id) →
    (∀ op ∈ ops, 0 ≤ op.1.attributes.llm_token_count_prompt.getD 0
        ∧ 0 ≤ op.1.attributes.llm_token_count_completion.getD 0) →
    GoodStore (ops.foldl (fun s op => (insert_span s op.1 op.2).2) s) m := by
  induction ops with
  | nil => intro s hs _ _; exact hs
  | cons op ops ih =>
      intro s hs hrk hnn
      rw [List.foldl_cons]
      refine ih _ ?_ ?_ ?_
      · exact good_insert s m op.1 op.2 hs
          (hrk op (List.mem_cons_self _ _)) (hnn op (List.mem_cons_self _ _))
      · intro q hq
        exact hrk q (List.mem_cons_of_mem _ hq)
      · intro q hq
        exact hnn q (List.mem_cons_of_mem _ hq)

theorem insert_span_mono (s : Store) (m : String → Nat) (sp : Span) (pn : String)
    (hg : GoodStore s m)
    (hn : 0 ≤ sp.attributes.llm_token_count_prompt.getD 0
        ∧ 0 ≤ sp.attributes.llm_token_count_completion.getD 0) :
    ∀ r ∈ s.spans, ∃ r' ∈ (insert_span s sp pn).2.spans,
      r'.id = r.id ∧ r'.span_id = r.span_id
      ∧ r.cumulative_error_count ≤ r'.cumulative_error_count
      ∧ r.cumulative_llm_token_count_prompt ≤ r'.cumulative_llm_token_count_prompt
      ∧ r.cumulative_llm_token_count_completion ≤ r'.cumulative_llm_token_count_completion := by
  obtain ⟨hsid, hid, hbound, hrank, hnn, hcum⟩ := hg
  intro r hrr
  by_cases hdup : s.spans.any (fun q => q.span_id == sp.context.span_id) = true
  · refine ⟨r, ?_, rfl, rfl, le_refl _, le_refl _, le_refl _⟩
    rw [insert_span_dup s sp pn hdup, upsertTrace_spans, resolveProject_spans]
    exact hrr
  · have hany : s.spans.any (fun q => q.span_id == sp.context.span_id) = false := by
      simpa using hdup
    rw [insert_span_fresh s sp pn hany]
    dsimp only
    rw [correlateSession_spans]
    dsimp only [propagateAncestors]
    have hd := newSpanCum_nonneg s.spans sp hnn hn
    refine ⟨(fun z => if z.id ∈ ((ancestorChain (s.spans ++ [mkSpanRow sp s.nextSpanId (upsertTrace (resolveProject s pn).2 sp (resolveProject s pn).1).1.id (newSpanCum s.spans sp)]) sp.parent_id (s.spans ++ [mkSpanRow sp s.nextSpanId (upsertTrace (resolveProject s pn).2 sp (resolveProject s pn).1).1.id (newSpanCum s.spans sp)]).length).map (fun c => c.id)) then bumpRow (newSpanCum s.spans sp) z else z) r,
      List.mem_map_of_mem _ (List.mem_append_left _ hrr), ?_⟩
    dsimp only
    split
    · dsimp only [bumpRow]
      refine ⟨rfl, rfl, by omega, by omega, by omega⟩
    · exact ⟨rfl, rfl, le_refl _, le_refl _, le_refl _⟩



/-- C2: after any sequence of insert_span calls from the empty store (in any
arrival order of a ranked, cycle-free parent forest with nonnegative token
counts), every stored span satisfies cumulative counter = own contribution +
sum of the cumulative counters of its currently stored direct children; and
along the whole run, a stored row's cumulative counters are only ever
incremented (never recomputed from scratch): after each later call the row
(matched by id) has counters at least as large. -/
theorem C2_cumulative_invariant (ops : List (Span × String)) (m : String → Nat)
    (hrank : ∀ op ∈ ops, ∀ pid, op.1.parent_id = some pid → m pid < m op.1.context.span_id)
    (hnn : ∀ op ∈ ops, 0 ≤ op.1.attributes.llm_token_count_prompt.getD 0
        ∧ 0 ≤ op.1.attributes.llm_token_count_completion.getD 0) :
    (∀ r ∈ (ingestAll ops).spans, CumEqRow (ingestAll ops).spans r)
    ∧ (∀ pre op post, ops = pre ++ op :: post →
        ∀ r ∈ (ingestAll pre).spans, ∃ r' ∈ (ingestAll (pre ++ [op])).spans,
          r'.id = r.id ∧ r'.span_id = r.span_id
          ∧ r.cumulative_error_count ≤ r'.cumulative_error_count
          ∧ r.cumulative_llm_token_count_prompt ≤ r'.cumulative_llm_token_count_prompt
          ∧ r.cumulative_llm_token_count_completion ≤ r'.cumulative_llm_token_count_completion) := by
  constructor
  · have hgood := good_fold ops m Store.empty (good_empty m) hrank hnn
    exact hgood.2.2.2.2.2
  · intro pre op post heq r hrr
    have hpre : ∀ q ∈ pre, q ∈ ops := by
      intro q hq
      rw [heq]
      exact List.mem_append_left _ hq
    have hop : op ∈ ops := by
      rw [heq]
      exact List.mem_append_right _ (List.mem_cons_self _ _)
    have hgpre : GoodStore (ingestAll pre) m :=
      good_fold pre m Store.empty (good_empty m)
        (fun q hq => hrank q (hpre q hq)) (fun q hq => hnn q (hpre q hq))
    have happend : ingestAll (pre ++ [op]) = (insert_span (ingestAll pre) op.1 op.2).2 := by
      unfold ingestAll
      rw [List.foldl_append]
      rfl
    rw [happend]
    exact insert_span_mono (ingestAll pre) m op.1 op.2 hgpre (hnn op hop) r hrr

/-- Witness for C2 at a concrete two-span sequence (child before root),
ranked by string length. -/
theorem C2_cumulative_invariant_witness :
    ((∀ op ∈ [(mkS "CC" (some "R") SpanStatusCode.ERROR 1 2, "p"), (mkS "R" none SpanStatusCode.OK 3 4, "p")],
        ∀ pid, (op.1 : Span).parent_id = some pid → (fun t : String => t.length) pid < (fun t : String => t.length) op.1.context.span_id)
     ∧ (∀ op ∈ [(mkS "CC" (some "R") SpanStatusCode.ERROR 1 2, "p"), (mkS "R" none SpanStatusCode.OK 3 4, "p")],
        0 ≤ (op.1 : Span).attributes.llm_token_count_prompt.getD 0
        ∧ 0 ≤ (op.1 : Span).attributes.llm_token_count_completion.getD 0))
    ∧ (∀ r ∈ (ingestAll [(mkS "CC" (some "R") SpanStatusCode.ERROR 1 2, "p"), (mkS "R" none SpanStatusCode.OK 3 4, "p")]).spans,
        CumEqRow (ingestAll [(mkS "CC" (some "R") SpanStatusCode.ERROR 1 2, "p"), (mkS "R" none SpanStatusCode.OK 3 4, "p")]).spans r) := by
  have h1 : ∀ op ∈ [(mkS "CC" (some "R") SpanStatusCode.ERROR 1 2, "p"), (mkS "R" none SpanStatusCode.OK 3 4, "p")],
      ∀ pid, (op.1 : Span).parent_id = some pid → (fun t : String => t.length) pid < (fun t : String => t.length) op.1.context.span_id := by
    intro op hop pid hpid
    rcases List.mem_cons.mp hop with h | h
    · subst h
      simp only [mkS] at hpid
      cases hpid
      decide
    · rcases List.mem_cons.mp h with h2 | h2
      · subst h2
        simp only [mkS] at hpid
        cases hpid
      · simp at h2
  have h2 : ∀ op ∈ [(mkS "CC" (some "R") SpanStatusCode.ERROR 1 2, "p"), (mkS "R" none SpanStatusCode.OK 3 4, "p")],
      0 ≤ (op.1 : Span).attributes.llm_token_count_prompt.getD 0
      ∧ 0 ≤ (op.1 : Span).attributes.llm_token_count_completion.getD 0 := by decide
  exact ⟨⟨h1, h2⟩, (C2_cumulative_invariant _ (fun t : String => t.length) h1 h2).1⟩



/-- Witness for C4 at a store holding the root "R" and an arriving child. -/
theorem C4_ancestor_propagation_witness :
    ((c4Store.spans.map (fun r => r.span_id)).Nodup
     ∧ (c4Store.spans.map (fun r => r.id)).Nodup
     ∧ Ranked c4Store.spans (fun t : String => t.length)
     ∧ (∀ pid, c4Span.parent_id = some pid →
         (fun t : String => t.length) pid < (fun t : String => t.length) c4Span.context.span_id)
     ∧ (∀ r ∈ c4Store.spans, r.span_id ≠ c4Span.context.span_id))
    ∧ ((insert_span c4Store c4Span "p").1.isSome = true
       ∧ (insert_span c4Store c4Span "p").2.spans.length = c4Store.spans.length + 1) := by
  have hrank : Ranked c4Store.spans (fun t : String => t.length) := by
    intro r hrr pid hpid
    simp only [c4Store, List.mem_singleton] at hrr
    subst hrr
    simp only [mkSpanRow, mkS] at hpid
    cases hpid
  have hspan : ∀ pid, c4Span.parent_id = some pid →
      (fun t : String => t.length) pid < (fun t : String => t.length) c4Span.context.span_id := by
    intro pid hpid
    simp only [c4Span, mkS] at hpid
    cases hpid
    decide
  have h := C4_ancestor_propagation c4Store (fun t : String => t.length) c4Span "p"
    (by decide) (by decide) hrank hspan (by decide)
  exact ⟨⟨by decide, by decide, hrank, hspan, by decide⟩, h.1, h.2.1⟩


end Phoenix
